import Mathlib

/-!
# Console selection from the device tree (core/kernel/console.c)

A shallow embedding of `core/kernel/console.c`.

* The file's single static variable `serial_console` is a field of `State`.
* Every call that leaves the file (a libfdt lookup, the driver registry, a
  serial driver operation, `strdup`/`free`, a trace message) appends one
  `Event` to `State.trace`, in program order, so that what was called, with
  which arguments and in which order can be stated about a run.
* What those calls return is not decided by this file: it is read from a
  `World`, over which every theorem quantifies.
* Pointers to objects this file never looks into (`void *fdt`,
  `struct serial_chip *`) are addresses, `NULL` being address zero.
* C strings are lists of characters held in buffers and read up to the first
  NUL, so that `strdup`, `strchr`, `*p = 0` and `p + 1` act on the buffer as
  the C code does.
-/

namespace Console

/-- Address of an object this file treats as a black box; zero is the null pointer. -/
abbrev Ptr := Nat

/-- The null pointer. -/
abbrev NULL : Ptr := 0

/-- The character that ends a C string. -/
abbrev NUL : Char := Char.ofNat 0

/-- The separator looked for in `stdout-path`, the character `:`. -/
abbrev COLON : Char := Char.ofNat 58

/-- Line feed, the C character `\n`. -/
abbrev LF : Int := 10

/-- Carriage return, the C character `\r`. -/
abbrev CR : Int := 13

/-- The node path `"/secure-chosen"`. -/
def SECURE_CHOSEN : List Char := "/secure-chosen".toList

/-- The node path `"/chosen"`. -/
def CHOSEN : List Char := "/chosen".toList

/-- The property name `"stdout-path"`. -/
def STDOUT_PATH : List Char := "stdout-path".toList

/-- One call leaving console.c, with its arguments (and its result where the
program branches on it). -/
inductive Event where
  /-- Call of `chip->ops->putc(chip, ch)`. -/
  | putc (chip : Ptr) (ch : Int)
  /-- Call of `chip->ops->flush(chip)`. -/
  | flush (chip : Ptr)
  /-- Call of `fdt_path_offset(fdt, path)`. -/
  | fdt_path_offset (fdt : Ptr) (path : List Char)
  /-- Call of `fdt_get_property(fdt, offs, name, NULL)`. -/
  | fdt_get_property (fdt : Ptr) (offs : Int) (name : List Char)
  /-- Call of `fdt_get_alias(fdt, name)`. -/
  | fdt_get_alias (fdt : Ptr) (name : List Char)
  /-- Call of `dt_find_compatible_driver(fdt, offs)`. -/
  | dt_find_compatible_driver (fdt : Ptr) (offs : Int)
  /-- Call of `sdrv->dev_alloc()`, which returned `ret`. -/
  | dev_alloc (ret : Ptr)
  /-- Call of `sdrv->dev_init(dev, fdt, offs, parms)`, which returned `ret`;
  `parms` is the string the driver reads at the pointer (`none` for `NULL`). -/
  | dev_init (dev : Ptr) (fdt : Ptr) (offs : Int) (parms : Option (List Char)) (ret : Int)
  /-- Call of `sdrv->dev_free(dev)`. -/
  | dev_free (dev : Ptr)
  /-- Call of `strdup(src)`. -/
  | strdup (src : List Char)
  /-- Call of `free(stdout_data)`. -/
  | free
  /-- A `DMSG`/`IMSG` diagnostic; where the text goes is decided by the trace
  layer, outside this file. -/
  | log (msg : String)
  deriving DecidableEq, Repr

/-- The `struct serial_driver` operations whose result the resolver branches on. -/
structure serial_driver where
  /-- Result of `dev_alloc()`: the new chip, or `NULL`. -/
  dev_alloc : Unit → Ptr
  /-- Result of `dev_init(dev, fdt, offs, parms)`: negative on failure. -/
  dev_init : Ptr → Ptr → Int → Option (List Char) → Int

/-- The field of `struct dt_driver` the resolver reads. -/
structure dt_driver where
  /-- The `const void *driver` field: a serial driver, or `NULL`. -/
  driver : Option serial_driver

/-- Everything console.c consumes from outside: both blobs, libfdt, the driver
registry and the allocator. -/
structure World where
  /-- Result of `get_embedded_dt()`: the blob, or `NULL`. -/
  get_embedded_dt : Ptr
  /-- Result of `get_external_dt()`: the blob, or `NULL`. -/
  get_external_dt : Ptr
  /-- Result of `fdt_path_offset(fdt, path)`: a node offset, or a negative error. -/
  fdt_path_offset : Ptr → List Char → Int
  /-- Result of `fdt_get_property(fdt, offs, name, NULL)`: the bytes at
  `prop->data`, or `none` for `NULL`. -/
  fdt_get_property : Ptr → Int → List Char → Option (List Char)
  /-- Result of `fdt_get_alias(fdt, name)`: the aliased path, or `none` for `NULL`. -/
  fdt_get_alias : Ptr → List Char → Option (List Char)
  /-- Result of `dt_find_compatible_driver(fdt, offs)`. -/
  dt_find_compatible_driver : Ptr → Int → Option dt_driver
  /-- Whether the allocation inside `strdup` succeeds. -/
  strdup_ok : Bool

/-- The state console.c owns (`serial_console`), with the calls made so far. -/
structure State where
  /-- The static `struct serial_chip *serial_console`. -/
  serial_console : Ptr
  /-- Calls made so far, oldest first. -/
  trace : List Event

/-- Record one outgoing call. -/
def emit (e : Event) (s : State) : State :=
  { s with trace := s.trace ++ [e] }

/-- `void console_putc(int ch)` (the weak default). -/
def console_putc (ch : Int) (s : State) : State :=
  if s.serial_console = NULL then s
  else
    let s1 := if ch = LF then emit (Event.putc s.serial_console CR) s else s
    emit (Event.putc s.serial_console ch) s1

/-- `void console_flush(void)` (the weak default). -/
def console_flush (s : State) : State :=
  if s.serial_console = NULL then s
  else emit (Event.flush s.serial_console) s

/-- `void register_serial_console(struct serial_chip *chip)`. -/
def register_serial_console (chip : Ptr) (s : State) : State :=
  { s with serial_console := chip }

/-- `static int find_chosen_node(void *fdt)`. -/
def find_chosen_node (w : World) (fdt : Ptr) (s : State) : Int × State :=
  if fdt = NULL then (-1, s)
  else
    let s1 := emit (Event.fdt_path_offset fdt SECURE_CHOSEN) s
    let offset := w.fdt_path_offset fdt SECURE_CHOSEN
    if offset < 0 then
      (w.fdt_path_offset fdt CHOSEN,
        emit (Event.fdt_path_offset fdt CHOSEN) s1)
    else (offset, s1)

/-- The C string found at offset `off` of a buffer: the bytes up to the first NUL. -/
def c_str (buf : List Char) (off : Nat) : List Char :=
  (buf.drop off).takeWhile (fun c => c != NUL)

/-- `strdup(src)`: a new buffer holding the string at `src` and its NUL, or
`none` when the allocation fails. -/
def strdup (ok : Bool) (src : List Char) : Option (List Char) :=
  if ok then some (c_str src 0 ++ [NUL]) else none

/-- `strchr(s, c)`: the offset of the first `c` in the string at the start of
the buffer, or `none` for `NULL`. -/
def strchr : List Char → Char → Option Nat
  | [], _ => none
  | x :: xs, c =>
    if x = c then some 0
    else if x = NUL then none
    else (strchr xs c).map (fun i => i + 1)

/-- `void configure_console_from_dt(void)`. -/
def configure_console_from_dt (w : World) (s : State) : State :=
  -- Probe console from secure DT and fallback to non-secure DT
  let fdt0 := w.get_embedded_dt
  let r0 := find_chosen_node w fdt0 s
  let probe : Ptr × Int × State :=
    if r0.1 < 0 then
      let fdt1 := w.get_external_dt
      let r1 := find_chosen_node w fdt1 r0.2
      (fdt1, r1.1, r1.2)
    else (fdt0, r0.1, r0.2)
  let fdt := probe.1
  let offs0 := probe.2.1
  let s1 := probe.2.2
  if offs0 < 0 then
    emit (Event.log "No console directive from DTB") s1
  else
    let s2 := emit (Event.fdt_get_property fdt offs0 STDOUT_PATH) s1
    match w.fdt_get_property fdt offs0 STDOUT_PATH with
    | none =>
      -- a chosen node without stdout-path: no console expected
      register_serial_console NULL (emit (Event.log "Switching off console") s2)
    | some data =>
      let s3 := emit (Event.strdup data) s2
      match strdup w.strdup_ok data with
      | none => s3
      | some dup =>
        let p := strchr dup COLON
        -- `*p = '\0'` and `parms = p + 1`
        let stdout_data := match p with
          | some i => dup.set i NUL
          | none => dup
        let parms : Option Nat := p.map (fun i => i + 1)
        -- stdout-path may refer to an alias
        let s4 := emit (Event.fdt_get_alias fdt (c_str stdout_data 0)) s3
        let uart := match w.fdt_get_alias fdt (c_str stdout_data 0) with
          | some target => target
          | none => c_str stdout_data 0
        let s5 := emit (Event.fdt_path_offset fdt uart) s4
        let offs := w.fdt_path_offset fdt uart
        let out : State :=
          if offs < 0 then s5
          else
            let s6 := emit (Event.dt_find_compatible_driver fdt offs) s5
            match w.dt_find_compatible_driver fdt offs with
            | none => s6
            | some dt_drv =>
              match dt_drv.driver with
              | none => s6
              | some sdrv =>
                let dev := sdrv.dev_alloc ()
                let s7 := emit (Event.dev_alloc dev) s6
                if dev = NULL then s7
                else
                  let s8 := console_flush s7
                  let ret := sdrv.dev_init dev fdt offs (parms.map (c_str stdout_data))
                  let s9 := emit
                    (Event.dev_init dev fdt offs (parms.map (c_str stdout_data)) ret) s8
                  if ret < 0 then emit (Event.dev_free dev) s9
                  else
                    register_serial_console dev
                      (emit (Event.log ("Switching console to device: " ++ String.mk uart)) s9)
        emit Event.free out

/-! ## The phases of `configure_console_from_dt`

The same code, cut at the points where the proofs need a name for an
intermediate value; `configure_console_from_dt_eq` shows that these are the
pieces of the function above. -/

/-- Lines 77-82 of `configure_console_from_dt`: the blob probed last, the
offset of its chosen node (negative when there is none) and the state reached. -/
def probe (w : World) (s : State) : Ptr × Int × State :=
  let fdt0 := w.get_embedded_dt
  let r0 := find_chosen_node w fdt0 s
  if r0.1 < 0 then
    let fdt1 := w.get_external_dt
    let r1 := find_chosen_node w fdt1 r0.2
    (fdt1, r1.1, r1.2)
  else (fdt0, r0.1, r0.2)

/-- Lines 102-106: the buffer `stdout_data` after `*p = 0`. -/
def cut_at_colon (dup : List Char) : List Char :=
  match strchr dup COLON with
  | some i => dup.set i NUL
  | none => dup

/-- Lines 102-106: `parms`, as an offset into `stdout_data` (`none` for `NULL`). -/
def parms_of (dup : List Char) : Option Nat :=
  (strchr dup COLON).map (fun i => i + 1)

/-- Lines 109-139: from the alias lookup to the label `out`. -/
def switch_device (w : World) (fdt : Ptr) (stdout_data : List Char) (parms : Option Nat)
    (s3 : State) : State :=
  let s4 := emit (Event.fdt_get_alias fdt (c_str stdout_data 0)) s3
  let uart := match w.fdt_get_alias fdt (c_str stdout_data 0) with
    | some target => target
    | none => c_str stdout_data 0
  let s5 := emit (Event.fdt_path_offset fdt uart) s4
  let offs := w.fdt_path_offset fdt uart
  if offs < 0 then s5
  else
    let s6 := emit (Event.dt_find_compatible_driver fdt offs) s5
    match w.dt_find_compatible_driver fdt offs with
    | none => s6
    | some dt_drv =>
      match dt_drv.driver with
      | none => s6
      | some sdrv =>
        let dev := sdrv.dev_alloc ()
        let s7 := emit (Event.dev_alloc dev) s6
        if dev = NULL then s7
        else
          let s8 := console_flush s7
          let ret := sdrv.dev_init dev fdt offs (parms.map (c_str stdout_data))
          let s9 := emit
            (Event.dev_init dev fdt offs (parms.map (c_str stdout_data)) ret) s8
          if ret < 0 then emit (Event.dev_free dev) s9
          else
            register_serial_console dev
              (emit (Event.log ("Switching console to device: " ++ String.mk uart)) s9)

/-- Lines 83-101 and 140-141: what is done with the probed node. -/
def after_probe (w : World) (fdt : Ptr) (offs0 : Int) (s1 : State) : State :=
  if offs0 < 0 then
    emit (Event.log "No console directive from DTB") s1
  else
    let s2 := emit (Event.fdt_get_property fdt offs0 STDOUT_PATH) s1
    match w.fdt_get_property fdt offs0 STDOUT_PATH with
    | none =>
      register_serial_console NULL (emit (Event.log "Switching off console") s2)
    | some data =>
      let s3 := emit (Event.strdup data) s2
      match strdup w.strdup_ok data with
      | none => s3
      | some dup =>
        emit Event.free (switch_device w fdt (cut_at_colon dup) (parms_of dup) s3)

/-! ## Vocabulary of the specification -/

/-- The calls made by one run of `configure_console_from_dt` started in `s`:
what the run appended to the trace. -/
def run_events (w : World) (s : State) : List Event :=
  (configure_console_from_dt w s).trace.drop s.trace.length

/-- The character of a `putc` on `chip`; nothing for any other call. -/
def putc_on (chip : Ptr) : Event → Option Int
  | Event.putc c ch => if c = chip then some ch else none
  | _ => none

/-- The characters a chip received through `putc`, oldest first. -/
def emissions (chip : Ptr) (tr : List Event) : List Int :=
  tr.filterMap (putc_on chip)

/-- A call of `sdrv->dev_free`. -/
def is_dev_free : Event → Bool
  | Event.dev_free _ => true
  | _ => false

/-- One use of the console by the rest of the system. -/
inductive Call where
  /-- The call `console_putc(ch)`. -/
  | putc (ch : Int)
  /-- The call `console_flush()`. -/
  | flush
  deriving DecidableEq, Repr

/-- A sequence of console uses, run in order. -/
def run_calls : List Call → State → State
  | [], s => s
  | Call.putc ch :: cs, s => run_calls cs (console_putc ch s)
  | Call.flush :: cs, s => run_calls cs (console_flush s)

/-- The blob `fdt`, which may be absent, has neither `/secure-chosen` nor `/chosen`. -/
def no_chosen_node (w : World) (fdt : Ptr) : Prop :=
  fdt = NULL ∨
    (w.fdt_path_offset fdt SECURE_CHOSEN < 0 ∧ w.fdt_path_offset fdt CHOSEN < 0)

/-- The chosen node of the blob `fdt` is at `offs`: `/secure-chosen` if that
path resolves, else `/chosen`. -/
def chosen_node_at (w : World) (fdt : Ptr) (offs : Int) : Prop :=
  fdt ≠ NULL ∧ 0 ≤ offs ∧
    (w.fdt_path_offset fdt SECURE_CHOSEN = offs ∨
      (w.fdt_path_offset fdt SECURE_CHOSEN < 0 ∧ w.fdt_path_offset fdt CHOSEN = offs))

/-- A chosen node is found at `offs` of `fdt`: in the embedded blob, or in the
external blob when the embedded one is absent or has no chosen node. -/
def chosen_found (w : World) (fdt : Ptr) (offs : Int) : Prop :=
  (fdt = w.get_embedded_dt ∧ chosen_node_at w fdt offs) ∨
    (no_chosen_node w w.get_embedded_dt ∧ fdt = w.get_external_dt ∧
      chosen_node_at w fdt offs)

instance (w : World) (fdt : Ptr) : Decidable (no_chosen_node w fdt) := by
  unfold no_chosen_node; infer_instance

instance (w : World) (fdt : Ptr) (offs : Int) : Decidable (chosen_node_at w fdt offs) := by
  unfold chosen_node_at; infer_instance

instance (w : World) (fdt : Ptr) (offs : Int) : Decidable (chosen_found w fdt offs) := by
  unfold chosen_found; infer_instance

/-- The string value of a property: the C string at `prop->data`. -/
def directive (data : List Char) : List Char := c_str data 0

/-- The text of `v` before its first `:` (all of `v` when it has none). -/
def text_before_colon (v : List Char) : List Char :=
  v.takeWhile (fun c => c != COLON)

/-- The text of `v` after its first `:`. -/
def text_after_colon (v : List Char) : List Char :=
  (v.dropWhile (fun c => c != COLON)).drop 1

/-- The calls made by the probe of lines 77-82 in a run started in `s`. -/
def probe_events (w : World) (s : State) : List Event :=
  (probe w s).2.2.trace.drop s.trace.length

/-- The parameter string of the directive `v`: the text after its first `:`,
absent when it has none. -/
def parms_text (v : List Char) : Option (List Char) :=
  if COLON ∈ v then some (text_after_colon v) else none

/-- The path a specifier stands for: the target of the alias of that name if
the blob defines one, else the specifier itself. -/
def uart_path (w : World) (fdt : Ptr) (spec : List Char) : List Char :=
  match w.fdt_get_alias fdt spec with
  | some target => target
  | none => spec

/-- The node offset the property value `data` resolves to in `fdt`. -/
def node_offset (w : World) (fdt : Ptr) (data : List Char) : Int :=
  w.fdt_path_offset fdt (uart_path w fdt (text_before_colon (directive data)))

/-- What flushing the console `c` calls: nothing when there is none. -/
def flush_events (c : Ptr) : List Event :=
  if c = NULL then [] else [Event.flush c]

/-- The lookups made from reading `stdout-path` up to resolving the node. -/
def lookup_events (w : World) (fdt : Ptr) (offs0 : Int) (data : List Char) : List Event :=
  [Event.fdt_get_property fdt offs0 STDOUT_PATH, Event.strdup data,
    Event.fdt_get_alias fdt (text_before_colon (directive data)),
    Event.fdt_path_offset fdt (uart_path w fdt (text_before_colon (directive data)))]

/-- The ways lines 83-141 can go for the probed node `offs0` of `fdt` when the
console is `c`: for each, what decides it, and the console and calls it ends with. -/
inductive Outcome (w : World) (fdt : Ptr) (offs0 : Int) (c : Ptr) : State → Prop where
  /-- No chosen node in either blob. -/
  | no_directive (h : offs0 < 0) :
      Outcome w fdt offs0 c ⟨c, [Event.log "No console directive from DTB"]⟩
  /-- A chosen node without `stdout-path`. -/
  | silenced (h : 0 ≤ offs0) (hp : w.fdt_get_property fdt offs0 STDOUT_PATH = none) :
      Outcome w fdt offs0 c
        ⟨NULL, [Event.fdt_get_property fdt offs0 STDOUT_PATH,
          Event.log "Switching off console"]⟩
  /-- The directive could not be duplicated. -/
  | no_memory (h : 0 ≤ offs0) (data : List Char)
      (hp : w.fdt_get_property fdt offs0 STDOUT_PATH = some data)
      (hm : w.strdup_ok = false) :
      Outcome w fdt offs0 c
        ⟨c, [Event.fdt_get_property fdt offs0 STDOUT_PATH, Event.strdup data]⟩
  /-- The specifier does not resolve to a node. -/
  | no_node (h : 0 ≤ offs0) (data : List Char)
      (hp : w.fdt_get_property fdt offs0 STDOUT_PATH = some data)
      (hm : w.strdup_ok = true)
      (hn : node_offset w fdt data < 0) :
      Outcome w fdt offs0 c ⟨c, lookup_events w fdt offs0 data ++ [Event.free]⟩
  /-- No compatible driver. -/
  | no_driver (h : 0 ≤ offs0) (data : List Char)
      (hp : w.fdt_get_property fdt offs0 STDOUT_PATH = some data)
      (hm : w.strdup_ok = true)
      (hn : 0 ≤ node_offset w fdt data)
      (hd : w.dt_find_compatible_driver fdt (node_offset w fdt data) = none) :
      Outcome w fdt offs0 c
        ⟨c, lookup_events w fdt offs0 data ++
          [Event.dt_find_compatible_driver fdt (node_offset w fdt data), Event.free]⟩
  /-- The driver descriptor carries no serial driver. -/
  | no_serial_driver (h : 0 ≤ offs0) (data : List Char)
      (hp : w.fdt_get_property fdt offs0 STDOUT_PATH = some data)
      (hm : w.strdup_ok = true)
      (hn : 0 ≤ node_offset w fdt data) (d : dt_driver)
      (hd : w.dt_find_compatible_driver fdt (node_offset w fdt data) = some d)
      (hs : d.driver = none) :
      Outcome w fdt offs0 c
        ⟨c, lookup_events w fdt offs0 data ++
          [Event.dt_find_compatible_driver fdt (node_offset w fdt data), Event.free]⟩
  /-- The driver allocated nothing. -/
  | no_device (h : 0 ≤ offs0) (data : List Char)
      (hp : w.fdt_get_property fdt offs0 STDOUT_PATH = some data)
      (hm : w.strdup_ok = true)
      (hn : 0 ≤ node_offset w fdt data) (d : dt_driver)
      (hd : w.dt_find_compatible_driver fdt (node_offset w fdt data) = some d)
      (sd : serial_driver) (hs : d.driver = some sd)
      (ha : sd.dev_alloc () = NULL) :
      Outcome w fdt offs0 c
        ⟨c, lookup_events w fdt offs0 data ++
          [Event.dt_find_compatible_driver fdt (node_offset w fdt data),
            Event.dev_alloc NULL, Event.free]⟩
  /-- The new device failed to initialize. -/
  | init_failed (h : 0 ≤ offs0) (data : List Char)
      (hp : w.fdt_get_property fdt offs0 STDOUT_PATH = some data)
      (hm : w.strdup_ok = true)
      (hn : 0 ≤ node_offset w fdt data) (d : dt_driver)
      (hd : w.dt_find_compatible_driver fdt (node_offset w fdt data) = some d)
      (sd : serial_driver) (hs : d.driver = some sd)
      (ha : sd.dev_alloc () ≠ NULL)
      (hi : sd.dev_init (sd.dev_alloc ()) fdt (node_offset w fdt data)
        (parms_text (directive data)) < 0) :
      Outcome w fdt offs0 c
        ⟨c, lookup_events w fdt offs0 data ++
          [Event.dt_find_compatible_driver fdt (node_offset w fdt data),
            Event.dev_alloc (sd.dev_alloc ())] ++ flush_events c ++
          [Event.dev_init (sd.dev_alloc ()) fdt (node_offset w fdt data)
              (parms_text (directive data))
              (sd.dev_init (sd.dev_alloc ()) fdt (node_offset w fdt data)
                (parms_text (directive data))),
            Event.dev_free (sd.dev_alloc ()), Event.free]⟩
  /-- The new device is the console. -/
  | switched (h : 0 ≤ offs0) (data : List Char)
      (hp : w.fdt_get_property fdt offs0 STDOUT_PATH = some data)
      (hm : w.strdup_ok = true)
      (hn : 0 ≤ node_offset w fdt data) (d : dt_driver)
      (hd : w.dt_find_compatible_driver fdt (node_offset w fdt data) = some d)
      (sd : serial_driver) (hs : d.driver = some sd)
      (ha : sd.dev_alloc () ≠ NULL)
      (hi : 0 ≤ sd.dev_init (sd.dev_alloc ()) fdt (node_offset w fdt data)
        (parms_text (directive data))) :
      Outcome w fdt offs0 c
        ⟨sd.dev_alloc (), lookup_events w fdt offs0 data ++
          [Event.dt_find_compatible_driver fdt (node_offset w fdt data),
            Event.dev_alloc (sd.dev_alloc ())] ++ flush_events c ++
          [Event.dev_init (sd.dev_alloc ()) fdt (node_offset w fdt data)
              (parms_text (directive data))
              (sd.dev_init (sd.dev_alloc ()) fdt (node_offset w fdt data)
                (parms_text (directive data))),
            Event.log ("Switching console to device: " ++
              String.mk (uart_path w fdt (text_before_colon (directive data)))),
            Event.free]⟩

/-- The four places a chosen node is looked for, in the order they are tried. -/
def chosen_candidates (w : World) : List (Ptr × List Char) :=
  [(w.get_embedded_dt, SECURE_CHOSEN), (w.get_embedded_dt, CHOSEN),
    (w.get_external_dt, SECURE_CHOSEN), (w.get_external_dt, CHOSEN)]

/-- The blob of the candidate is present and its path resolves to a node. -/
def node_exists (w : World) (c : Ptr × List Char) : Bool :=
  decide (c.1 ≠ NULL ∧ 0 ≤ w.fdt_path_offset c.1 c.2)

/-- The first candidate that exists, as a blob and a node offset. -/
def first_chosen (w : World) : Option (Ptr × Int) :=
  ((chosen_candidates w).find? (node_exists w)).map
    (fun c => (c.1, w.fdt_path_offset c.1 c.2))

/-- A call of `chip->ops->flush`. -/
def is_flush : Event → Bool
  | Event.flush _ => true
  | _ => false

/-- A call of `sdrv->dev_init`. -/
def is_dev_init : Event → Bool
  | Event.dev_init _ _ _ _ _ => true
  | _ => false

/-- What one console use is expected to call on the chip `chip`. -/
def call_events (chip : Ptr) : Call → List Event
  | Call.putc ch =>
    if ch = LF then [Event.putc chip CR, Event.putc chip LF] else [Event.putc chip ch]
  | Call.flush => [Event.flush chip]

/-- What a sequence of console uses is expected to call on the chip `chip`. -/
def calls_events (chip : Ptr) : List Call → List Event
  | [] => []
  | c :: cs => call_events chip c ++ calls_events chip cs

/-- The text `chars` with a carriage return put before each line feed. -/
def with_cr : List Int → List Int
  | [] => []
  | ch :: cs => if ch = LF then CR :: LF :: with_cr cs else ch :: with_cr cs

/-! ## A board to run the code on -/

/-- A serial driver whose `dev_alloc` returns `dev` and whose `dev_init` returns `ret`. -/
def uart_driver (dev : Ptr) (ret : Int) : serial_driver where
  dev_alloc := fun _ => dev
  dev_init := fun _ _ _ _ => ret

/-- A board with an embedded blob (address 1) and an external blob (address 2).
The embedded blob has a UART node `/serial@1000` at offset 40, aliased
`serial0`, and `/secure-chosen` at `chosen` (absent when that is negative);
the value of `stdout-path` there and the driver registered for the UART are
left to the caller. The external blob is empty. -/
def board (chosen : Int) (stdout_path : Option (List Char)) (drv : Option dt_driver) :
    World where
  get_embedded_dt := 1
  get_external_dt := 2
  fdt_path_offset := fun fdt path =>
    if fdt = 1 ∧ path = SECURE_CHOSEN then chosen
    else if fdt = 1 ∧ path = "/serial@1000".toList then 40
    else -1
  fdt_get_property := fun fdt offs name =>
    if fdt = 1 ∧ offs = chosen ∧ name = STDOUT_PATH then stdout_path else none
  fdt_get_alias := fun fdt name =>
    if fdt = 1 ∧ name = "serial0".toList then some "/serial@1000".toList else none
  dt_find_compatible_driver := fun fdt offs =>
    if fdt = 1 ∧ offs = 40 then drv else none
  strdup_ok := true

/-- A board whose embedded and external blobs (addresses 1 and 2) hold
`/secure-chosen` and `/chosen` at the given offsets (absent when negative),
with the given `stdout-path` values. The external blob has a UART node `/uart`
at offset 48, driven by a driver that allocates chip 9. -/
def two_blob_board (emb_secure emb_chosen ext_secure ext_chosen : Int)
    (emb_stdout ext_stdout : Option (List Char)) : World where
  get_embedded_dt := 1
  get_external_dt := 2
  fdt_path_offset := fun fdt path =>
    if fdt = 1 ∧ path = SECURE_CHOSEN then emb_secure
    else if fdt = 1 ∧ path = CHOSEN then emb_chosen
    else if fdt = 2 ∧ path = SECURE_CHOSEN then ext_secure
    else if fdt = 2 ∧ path = CHOSEN then ext_chosen
    else if fdt = 2 ∧ path = "/uart".toList then 48
    else -1
  fdt_get_property := fun fdt _ name =>
    if fdt = 1 ∧ name = STDOUT_PATH then emb_stdout
    else if fdt = 2 ∧ name = STDOUT_PATH then ext_stdout
    else none
  fdt_get_alias := fun _ _ => none
  dt_find_compatible_driver := fun fdt offs =>
    if fdt = 2 ∧ offs = 48 then some ⟨some (uart_driver 9 0)⟩ else none
  strdup_ok := true

/-- The bytes of the property value `"/uart:9600:8n1"`. -/
def uart_9600_8n1 : List Char := "/uart:9600:8n1".toList ++ [NUL]

/-- The bytes of the property value `"serial0:115200n8"`. -/
def serial0_115200n8 : List Char := "serial0:115200n8".toList ++ [NUL]

/-- The bytes of the property value `"serial0"`. -/
def serial0 : List Char := "serial0".toList ++ [NUL]

/-- A state in which chip 3 is the console and nothing has been called yet. -/
def early_console : State := ⟨3, []⟩

/-! ## The phases are the function -/

theorem configure_console_from_dt_eq (w : World) (s : State) :
    configure_console_from_dt w s =
      after_probe w (probe w s).1 (probe w s).2.1 (probe w s).2.2 := rfl

/-! ## The directive string

What `strdup`, `strchr`, `*p = 0` and `p + 1` leave in the buffer, in terms of
the text before and after the first `:`. -/

theorem c_str_no_nul (buf : List Char) (off : Nat) : NUL ∉ c_str buf off := by
  unfold c_str
  intro h
  have := List.mem_takeWhile_imp h
  simp at this

theorem c_str_append_nul (v rest : List Char) (h : NUL ∉ v) :
    c_str (v ++ NUL :: rest) 0 = v := by
  unfold c_str
  rw [List.drop_zero]
  induction v with
  | nil => simp [List.takeWhile_cons]
  | cons x xs ih =>
    have hx : x ≠ NUL := fun e => h (by simp [e])
    have hxs : NUL ∉ xs := fun e => h (by simp [e])
    simp [List.takeWhile_cons, hx, ih hxs]

theorem text_before_colon_append (a b : List Char) (h : COLON ∉ a) :
    text_before_colon (a ++ COLON :: b) = a := by
  unfold text_before_colon
  induction a with
  | nil => simp [List.takeWhile_cons]
  | cons x xs ih =>
    have hx : x ≠ COLON := fun e => h (by simp [e])
    have hxs : COLON ∉ xs := fun e => h (by simp [e])
    simp [List.takeWhile_cons, hx, ih hxs]

theorem text_after_colon_append (a b : List Char) (h : COLON ∉ a) :
    text_after_colon (a ++ COLON :: b) = b := by
  unfold text_after_colon
  induction a with
  | nil => simp [List.dropWhile_cons]
  | cons x xs ih =>
    have hx : x ≠ COLON := fun e => h (by simp [e])
    have hxs : COLON ∉ xs := fun e => h (by simp [e])
    simp [List.dropWhile_cons, hx, ih hxs]

theorem text_before_colon_no_colon (v : List Char) : COLON ∉ text_before_colon v := by
  unfold text_before_colon
  intro h
  have := List.mem_takeWhile_imp h
  simp at this

theorem split_at_first_colon (v : List Char) (h : COLON ∈ v) :
    ∃ a b, v = a ++ COLON :: b ∧ COLON ∉ a := by
  induction v with
  | nil => simp at h
  | cons x xs ih =>
    by_cases hx : x = COLON
    · exact ⟨[], xs, by simp [hx], by simp⟩
    · have hxs : COLON ∈ xs := by
        rcases List.mem_cons.mp h with e | e
        · exact absurd e.symm hx
        · exact e
      obtain ⟨a, b, hab, ha⟩ := ih hxs
      refine ⟨x :: a, b, by simp [hab], ?_⟩
      intro hm
      rcases List.mem_cons.mp hm with e | e
      · exact hx e.symm
      · exact ha e

theorem text_before_colon_of_not_mem (v : List Char) (h : COLON ∉ v) :
    text_before_colon v = v := by
  unfold text_before_colon
  rw [List.takeWhile_eq_self_iff]
  intro x hx
  have : x ≠ COLON := fun e => h (e ▸ hx)
  simpa using this

theorem strchr_append (a rest : List Char) (c : Char) (hc : c ∉ a) (hn : NUL ∉ a) :
    strchr (a ++ c :: rest) c = some a.length := by
  induction a with
  | nil => simp [strchr]
  | cons x xs ih =>
    have hx : x ≠ c := fun e => hc (by simp [e])
    have hx0 : x ≠ NUL := fun e => hn (by simp [e])
    have h1 : c ∉ xs := fun e => hc (by simp [e])
    have h2 : NUL ∉ xs := fun e => hn (by simp [e])
    simp [strchr, hx, hx0, ih h1 h2]

theorem strchr_none (a rest : List Char) (c : Char) (hc : c ∉ a) (hn : NUL ∉ a)
    (h0 : c ≠ NUL) : strchr (a ++ NUL :: rest) c = none := by
  induction a with
  | nil => simp [strchr, Ne.symm h0]
  | cons x xs ih =>
    have hx : x ≠ c := fun e => hc (by simp [e])
    have hx0 : x ≠ NUL := fun e => hn (by simp [e])
    have h1 : c ∉ xs := fun e => hc (by simp [e])
    have h2 : NUL ∉ xs := fun e => hn (by simp [e])
    simp [strchr, hx, hx0, ih h1 h2]

theorem colon_ne_nul : COLON ≠ NUL := by decide

/-- The buffer after `*p = 0` when the duplicated string is `a:b`. -/
theorem cut_at_colon_split (a b : List Char) (hc : COLON ∉ a) (hn : NUL ∉ a) :
    cut_at_colon (a ++ COLON :: b ++ [NUL]) = a ++ NUL :: (b ++ [NUL]) ∧
    parms_of (a ++ COLON :: b ++ [NUL]) = some (a.length + 1) := by
  have hs : strchr (a ++ COLON :: b ++ [NUL]) COLON = some a.length := by
    rw [List.append_assoc, List.cons_append]
    exact strchr_append _ _ _ hc hn
  unfold cut_at_colon parms_of
  rw [hs]
  refine ⟨?_, rfl⟩
  simp only [List.append_assoc, List.cons_append]
  rw [List.set_append_right _ _ (le_refl _)]
  simp

/-- What lines 99-106 leave in `stdout_data`: the text before the first `:`. -/
theorem specifier_eq (data : List Char) :
    c_str (cut_at_colon (c_str data 0 ++ [NUL])) 0 = text_before_colon (directive data) := by
  unfold directive
  have hn := c_str_no_nul data 0
  generalize c_str data 0 = v at hn
  by_cases hc : COLON ∈ v
  · obtain ⟨a, b, rfl, hca⟩ := split_at_first_colon v hc
    have hna : NUL ∉ a := fun e => hn (by simp [e])
    rw [(cut_at_colon_split a b hca hna).1, text_before_colon_append a b hca]
    exact c_str_append_nul _ _ hna
  · have hs : strchr (v ++ [NUL]) COLON = none := strchr_none _ _ _ hc hn colon_ne_nul
    unfold cut_at_colon
    rw [hs]
    simp only
    rw [c_str_append_nul _ _ hn, text_before_colon_of_not_mem v hc]

/-- What lines 99-106 leave at `parms`: the text after the first `:`, or `NULL`. -/
theorem parms_eq (data : List Char) :
    (parms_of (c_str data 0 ++ [NUL])).map (c_str (cut_at_colon (c_str data 0 ++ [NUL]))) =
      if COLON ∈ directive data then some (text_after_colon (directive data)) else none := by
  unfold directive
  have hn := c_str_no_nul data 0
  generalize c_str data 0 = v at hn
  by_cases hc : COLON ∈ v
  · obtain ⟨a, b, rfl, hca⟩ := split_at_first_colon v hc
    have hna : NUL ∉ a := fun e => hn (by simp [e])
    have hnb : NUL ∉ b := fun e => hn (by simp [e])
    rw [(cut_at_colon_split a b hca hna).1, (cut_at_colon_split a b hca hna).2,
      text_after_colon_append a b hca, if_pos hc]
    simp only [Option.map_some', Option.some.injEq]
    have h0 := c_str_append_nul b [] hnb
    unfold c_str at h0 ⊢
    rw [List.drop_zero] at h0
    rw [show a ++ NUL :: (b ++ [NUL]) = (a ++ [NUL]) ++ (b ++ [NUL]) by simp,
      List.drop_left' (by simp)]
    exact h0
  · have hs : strchr (v ++ [NUL]) COLON = none := strchr_none _ _ _ hc hn colon_ne_nul
    unfold parms_of
    rw [hs]
    simp [hc]

/-! ## The calls of a run

A run only appends to the trace, and what it appends after the probe is one
of the cases of `Outcome`. -/

theorem find_chosen_node_frame (w : World) (fdt : Ptr) (s : State) :
    (find_chosen_node w fdt s).2.serial_console = s.serial_console ∧
    ∃ evs, (find_chosen_node w fdt s).2.trace = s.trace ++ evs ∧
      ∀ e ∈ evs, e = Event.fdt_path_offset fdt SECURE_CHOSEN ∨
        e = Event.fdt_path_offset fdt CHOSEN := by
  unfold find_chosen_node
  by_cases h0 : fdt = NULL
  · simp [h0]
  · by_cases h1 : w.fdt_path_offset fdt SECURE_CHOSEN < 0
    · simp only [h0, h1, if_true, if_false, emit]
      exact ⟨trivial, [Event.fdt_path_offset fdt SECURE_CHOSEN, Event.fdt_path_offset fdt CHOSEN],
        by simp, by simp⟩
    · simp only [h0, h1, if_false, emit]
      exact ⟨trivial, [Event.fdt_path_offset fdt SECURE_CHOSEN], by simp, by simp⟩

theorem probe_frame (w : World) (s : State) :
    (probe w s).2.2.serial_console = s.serial_console ∧
    ∃ evs, (probe w s).2.2.trace = s.trace ++ evs ∧
      ∀ e ∈ evs, ∃ f p, e = Event.fdt_path_offset f p ∧
        (f = w.get_embedded_dt ∨ f = w.get_external_dt) ∧ (p = SECURE_CHOSEN ∨ p = CHOSEN) := by
  obtain ⟨hc0, ev0, ht0, hl0⟩ := find_chosen_node_frame w w.get_embedded_dt s
  obtain ⟨hc1, ev1, ht1, hl1⟩ :=
    find_chosen_node_frame w w.get_external_dt (find_chosen_node w w.get_embedded_dt s).2
  have hl0' : ∀ e ∈ ev0, ∃ f p, e = Event.fdt_path_offset f p ∧
      (f = w.get_embedded_dt ∨ f = w.get_external_dt) ∧ (p = SECURE_CHOSEN ∨ p = CHOSEN) := by
    intro e he
    rcases hl0 e he with h | h
    · exact ⟨_, _, h, Or.inl rfl, Or.inl rfl⟩
    · exact ⟨_, _, h, Or.inl rfl, Or.inr rfl⟩
  have hl1' : ∀ e ∈ ev1, ∃ f p, e = Event.fdt_path_offset f p ∧
      (f = w.get_embedded_dt ∨ f = w.get_external_dt) ∧ (p = SECURE_CHOSEN ∨ p = CHOSEN) := by
    intro e he
    rcases hl1 e he with h | h
    · exact ⟨_, _, h, Or.inr rfl, Or.inl rfl⟩
    · exact ⟨_, _, h, Or.inr rfl, Or.inr rfl⟩
  unfold probe
  by_cases h : (find_chosen_node w w.get_embedded_dt s).1 < 0
  · simp only [h, if_true]
    refine ⟨by rw [hc1, hc0], ev0 ++ ev1, by rw [ht1, ht0, List.append_assoc], ?_⟩
    intro e he
    rcases List.mem_append.mp he with he | he
    · exact hl0' e he
    · exact hl1' e he
  · simp only [h, if_false]
    exact ⟨hc0, ev0, ht0, hl0'⟩

theorem probe_trace (w : World) (s : State) :
    (probe w s).2.2.trace = s.trace ++ probe_events w s := by
  obtain ⟨_, evs, ht, _⟩ := probe_frame w s
  unfold probe_events
  rw [ht, List.drop_left]

theorem probe_events_lookup (w : World) (s : State) (e : Event) (he : e ∈ probe_events w s) :
    ∃ f p, e = Event.fdt_path_offset f p ∧
      (f = w.get_embedded_dt ∨ f = w.get_external_dt) ∧ (p = SECURE_CHOSEN ∨ p = CHOSEN) := by
  obtain ⟨_, evs, ht, hl⟩ := probe_frame w s
  unfold probe_events at he
  rw [ht, List.drop_left] at he
  exact hl e he

theorem not_mem_probe_events (w : World) (s : State) (e : Event)
    (hne : ∀ f p, e ≠ Event.fdt_path_offset f p) : e ∉ probe_events w s := by
  intro he
  obtain ⟨f, p, h, _⟩ := probe_events_lookup w s e he
  exact hne f p h

theorem probe_state (w : World) (s : State) :
    (probe w s).2.2 = ⟨s.serial_console, s.trace ++ probe_events w s⟩ := by
  have h1 := (probe_frame w s).1
  have h2 := probe_trace w s
  cases hp : (probe w s).2.2 with
  | mk c t =>
    rw [hp] at h1 h2
    simp only at h1 h2
    rw [h1, h2]

theorem switch_device_frame (w : World) (fdt : Ptr) (buf : List Char) (parms : Option Nat)
    (c : Ptr) (t : List Event) :
    switch_device w fdt buf parms ⟨c, t⟩ =
      ⟨(switch_device w fdt buf parms ⟨c, []⟩).serial_console,
        t ++ (switch_device w fdt buf parms ⟨c, []⟩).trace⟩ := by
  unfold switch_device
  simp only [emit, console_flush, register_serial_console]
  split_ifs <;> (try split) <;> (try split) <;> (try split_ifs) <;> simp

theorem after_probe_frame (w : World) (fdt : Ptr) (offs : Int) (c : Ptr) (t : List Event) :
    after_probe w fdt offs ⟨c, t⟩ =
      ⟨(after_probe w fdt offs ⟨c, []⟩).serial_console,
        t ++ (after_probe w fdt offs ⟨c, []⟩).trace⟩ := by
  unfold after_probe
  simp only [emit, register_serial_console]
  by_cases ho : offs < 0
  · simp [ho]
  · cases hprop : w.fdt_get_property fdt offs STDOUT_PATH with
    | none => simp [ho]
    | some data =>
      cases hdup : strdup w.strdup_ok data with
      | none => simp [ho, hdup]
      | some dup =>
        have h1 := switch_device_frame w fdt (cut_at_colon dup) (parms_of dup) c
          (t ++ [Event.fdt_get_property fdt offs STDOUT_PATH] ++ [Event.strdup data])
        have h2 := switch_device_frame w fdt (cut_at_colon dup) (parms_of dup) c
          ([] ++ [Event.fdt_get_property fdt offs STDOUT_PATH] ++ [Event.strdup data])
        simp only [ho, hdup, if_false]
        rw [h1, h2]
        simp

theorem run_events_eq (w : World) (s : State) :
    run_events w s = probe_events w s ++
      (after_probe w (probe w s).1 (probe w s).2.1 ⟨s.serial_console, []⟩).trace := by
  unfold run_events
  rw [configure_console_from_dt_eq, probe_state, after_probe_frame]
  simp only [List.append_assoc, List.drop_left]

theorem run_console_eq (w : World) (s : State) :
    (configure_console_from_dt w s).serial_console =
      (after_probe w (probe w s).1 (probe w s).2.1 ⟨s.serial_console, []⟩).serial_console := by
  rw [configure_console_from_dt_eq, probe_state, after_probe_frame]

theorem run_trace_eq (w : World) (s : State) :
    (configure_console_from_dt w s).trace = s.trace ++ run_events w s := by
  rw [run_events_eq, configure_console_from_dt_eq, probe_state, after_probe_frame]
  simp only [List.append_assoc]

theorem find_chosen_node_none (w : World) (fdt : Ptr) (s : State)
    (h : no_chosen_node w fdt) : (find_chosen_node w fdt s).1 < 0 := by
  unfold find_chosen_node
  rcases h with h | ⟨h1, h2⟩
  · simp [h]
  · by_cases h0 : fdt = NULL
    · simp [h0]
    · simp [h0, h1, h2]

theorem find_chosen_node_at (w : World) (fdt : Ptr) (offs : Int) (s : State)
    (h : chosen_node_at w fdt offs) : (find_chosen_node w fdt s).1 = offs := by
  unfold find_chosen_node
  obtain ⟨h0, hpos, h1 | ⟨h1, h2⟩⟩ := h
  · subst h1
    have : ¬ w.fdt_path_offset fdt SECURE_CHOSEN < 0 := by omega
    simp [h0, this]
  · simp [h0, h1, h2]

theorem probe_none (w : World) (s : State)
    (he : no_chosen_node w w.get_embedded_dt) (hx : no_chosen_node w w.get_external_dt) :
    (probe w s).2.1 < 0 := by
  have h0 := find_chosen_node_none w _ s he
  have h1 := find_chosen_node_none w _ (find_chosen_node w w.get_embedded_dt s).2 hx
  unfold probe
  simp only [h0, if_true]
  exact h1

theorem probe_found (w : World) (fdt : Ptr) (offs : Int) (s : State)
    (h : chosen_found w fdt offs) : (probe w s).1 = fdt ∧ (probe w s).2.1 = offs := by
  unfold probe
  rcases h with ⟨hf, hat⟩ | ⟨hno, hf, hat⟩
  · subst hf
    have h0 := find_chosen_node_at w _ offs s hat
    have : ¬ (find_chosen_node w w.get_embedded_dt s).1 < 0 := by
      have := hat.2.1
      omega
    simp only [this, if_false]
    exact ⟨trivial, h0⟩
  · subst hf
    have h0 := find_chosen_node_none w _ s hno
    simp only [h0, if_true]
    exact ⟨trivial, find_chosen_node_at w _ offs _ hat⟩

theorem after_probe_outcome (w : World) (fdt : Ptr) (offs0 : Int) (c : Ptr) :
    Outcome w fdt offs0 c (after_probe w fdt offs0 ⟨c, []⟩) := by
  unfold after_probe
  by_cases ho : offs0 < 0
  · simp only [ho, if_true, emit, List.nil_append]
    exact Outcome.no_directive ho
  · have ho' : 0 ≤ offs0 := by omega
    simp only [ho, if_false]
    cases hp : w.fdt_get_property fdt offs0 STDOUT_PATH with
    | none =>
      simp only [emit, register_serial_console, List.nil_append, List.cons_append]
      exact Outcome.silenced ho' hp
    | some data =>
      cases hm : w.strdup_ok with
      | false =>
        simp only [strdup, emit, List.nil_append, List.cons_append]
        exact Outcome.no_memory ho' data hp hm
      | true =>
        simp only [strdup, if_true]
        unfold switch_device
        simp only [specifier_eq, parms_eq]
        have hu : ∀ spec : List Char,
            (match w.fdt_get_alias fdt spec with
              | some target => target
              | none => spec) = uart_path w fdt spec := fun _ => rfl
        simp only [hu]
        have hno : w.fdt_path_offset fdt (uart_path w fdt (text_before_colon (directive data)))
            = node_offset w fdt data := rfl
        have hpt : (if COLON ∈ directive data then some (text_after_colon (directive data))
            else none) = parms_text (directive data) := rfl
        simp only [hno, hpt]
        by_cases hn : node_offset w fdt data < 0
        · simp only [hn, if_true, emit, List.nil_append, List.cons_append]
          exact Outcome.no_node ho' data hp hm hn
        · have hn' : 0 ≤ node_offset w fdt data := by omega
          simp only [hn, if_false]
          cases hd : w.dt_find_compatible_driver fdt (node_offset w fdt data) with
          | none =>
            simp only [emit, List.nil_append, List.cons_append]
            exact Outcome.no_driver ho' data hp hm hn' hd
          | some d =>
            cases hs : d.driver with
            | none =>
              simp only [hs, emit, List.nil_append, List.cons_append]
              exact Outcome.no_serial_driver ho' data hp hm hn' d hd hs
            | some sd =>
              simp only [hs]
              by_cases ha : sd.dev_alloc () = NULL
              · simp only [ha, if_true, emit, List.nil_append, List.cons_append]
                have := Outcome.no_device (c := c) ho' data hp hm hn' d hd sd hs ha
                simpa only [lookup_events, List.cons_append, List.nil_append] using this
              · have hfl : ∀ t : List Event, console_flush ⟨c, t⟩ = ⟨c, t ++ flush_events c⟩ := by
                  intro t
                  unfold console_flush flush_events
                  by_cases hc : c = NULL <;> simp [hc, emit]
                simp only [ha, if_false, emit, hfl]
                by_cases hi : sd.dev_init (sd.dev_alloc ()) fdt (node_offset w fdt data)
                    (parms_text (directive data)) < 0
                · simp only [hi, if_true]
                  have := Outcome.init_failed (c := c) ho' data hp hm hn' d hd sd hs ha hi
                  simpa only [lookup_events, List.cons_append, List.nil_append,
                    List.append_assoc] using this
                · simp only [hi, if_false, register_serial_console]
                  have := Outcome.switched (c := c) ho' data hp hm hn' d hd sd hs ha
                    (by omega)
                  simpa only [lookup_events, List.cons_append, List.nil_append,
                    List.append_assoc] using this


theorem run_outcome (w : World) (s : State) :
    ∃ c evs, Outcome w (probe w s).1 (probe w s).2.1 s.serial_console ⟨c, evs⟩ ∧
      (configure_console_from_dt w s).serial_console = c ∧
      run_events w s = probe_events w s ++ evs :=
  ⟨_, _, after_probe_outcome w _ _ _, run_console_eq w s, run_events_eq w s⟩

theorem chosen_found_nonneg (w : World) (fdt : Ptr) (offs0 : Int)
    (hfound : chosen_found w fdt offs0) : 0 ≤ offs0 := by
  rcases hfound with ⟨_, h⟩ | ⟨_, _, h⟩ <;> exact h.2.1

theorem run_outcome_found (w : World) (s : State) (fdt : Ptr) (offs0 : Int)
    (hfound : chosen_found w fdt offs0) :
    ∃ c evs, Outcome w fdt offs0 s.serial_console ⟨c, evs⟩ ∧
      (configure_console_from_dt w s).serial_console = c ∧
      run_events w s = probe_events w s ++ evs := by
  obtain ⟨c, evs, ho, hc, he⟩ := run_outcome w s
  obtain ⟨hf, hp⟩ := probe_found w fdt offs0 s hfound
  rw [hf, hp] at ho
  exact ⟨c, evs, ho, hc, he⟩

theorem filter_dev_free_probe_events (w : World) (s : State) :
    (probe_events w s).filter is_dev_free = [] := by
  rw [List.filter_eq_nil_iff]
  intro e he
  obtain ⟨f, p, rfl, _⟩ := probe_events_lookup w s e he
  simp [is_dev_free]

theorem filter_dev_free_flush_events (c : Ptr) :
    (flush_events c).filter is_dev_free = [] := by
  unfold flush_events
  by_cases h : c = NULL <;> simp [h, is_dev_free]

/-! ## The console facade -/

theorem console_putc_off (ch : Int) (s : State) (h : s.serial_console = NULL) :
    console_putc ch s = s := by
  unfold console_putc
  simp [h]

theorem console_flush_off (s : State) (h : s.serial_console = NULL) :
    console_flush s = s := by
  unfold console_flush
  simp [h]

theorem run_calls_off (cs : List Call) (s : State) (h : s.serial_console = NULL) :
    run_calls cs s = s := by
  induction cs with
  | nil => rfl
  | cons c cs ih =>
    cases c with
    | putc ch => simp only [run_calls]; rw [console_putc_off ch s h]; exact ih
    | flush => simp only [run_calls]; rw [console_flush_off s h]; exact ih

theorem emissions_append (chip : Ptr) (xs ys : List Event) :
    emissions chip (xs ++ ys) = emissions chip xs ++ emissions chip ys := by
  unfold emissions
  exact List.filterMap_append _ _ _

/-! ## Properties of the resolver and of the facade -/

/-- C1: when neither blob (an absent blob has no node) resolves `/secure-chosen`
or `/chosen`, `configure_console_from_dt` leaves `serial_console` as it was. -/
theorem no_chosen_node_keeps_console (w : World) (s : State)
    (he : no_chosen_node w w.get_embedded_dt) (hx : no_chosen_node w w.get_external_dt) :
    (configure_console_from_dt w s).serial_console = s.serial_console := by
  obtain ⟨c, evs, ho, hc, -⟩ := run_outcome w s
  have h := probe_none w s he hx
  rw [hc]
  cases ho <;> first | rfl | omega

theorem no_chosen_node_keeps_console_witness :
    no_chosen_node (board (-1) none none) (board (-1) none none).get_embedded_dt ∧
    no_chosen_node (board (-1) none none) (board (-1) none none).get_external_dt ∧
    (configure_console_from_dt (board (-1) none none) early_console).serial_console = 3 :=
  ⟨by decide, by decide,
    no_chosen_node_keeps_console (board (-1) none none) early_console (by decide) (by decide)⟩

/-- C2: when a chosen node is found and it has no `stdout-path` property,
`configure_console_from_dt` ends with `serial_console` null, and from then on
no sequence of `console_putc` and `console_flush` calls reaches a device. -/
theorem chosen_without_stdout_path_silences (w : World) (s : State) (fdt : Ptr) (offs : Int)
    (hfound : chosen_found w fdt offs)
    (hprop : w.fdt_get_property fdt offs STDOUT_PATH = none) :
    (configure_console_from_dt w s).serial_console = NULL ∧
    ∀ calls : List Call,
      run_calls calls (configure_console_from_dt w s) = configure_console_from_dt w s := by
  have hoff : (configure_console_from_dt w s).serial_console = NULL := by
    obtain ⟨c, evs, ho, hc, -⟩ := run_outcome w s
    obtain ⟨hf, hp⟩ := probe_found w fdt offs s hfound
    have hpos := chosen_found_nonneg w fdt offs hfound
    rw [hf, hp] at ho
    rw [hc]
    cases ho <;> first | rfl | omega | simp_all
  exact ⟨hoff, fun calls => run_calls_off calls _ hoff⟩

theorem chosen_without_stdout_path_silences_witness :
    chosen_found (board 8 none none) 1 8 ∧
    (configure_console_from_dt (board 8 none none) early_console).serial_console = NULL ∧
    run_calls [Call.putc 65, Call.putc LF, Call.flush]
        (configure_console_from_dt (board 8 none none) early_console) =
      configure_console_from_dt (board 8 none none) early_console :=
  have h := chosen_without_stdout_path_silences (board 8 none none) early_console 1 8
    (by decide) (by decide)
  ⟨by decide, h.1, h.2 _⟩

/-- C3: in a run where `dev_init` was called on a device and returned a
negative value, that device is the non-null result of the run's `dev_alloc`,
`serial_console` after the run is what it was before, and `dev_free` is called
exactly once, on that device. -/
theorem init_failure_keeps_console_and_frees (w : World) (s : State) (dev fdt : Ptr)
    (offs ret : Int) (parms : Option (List Char))
    (hinit : Event.dev_init dev fdt offs parms ret ∈ run_events w s) (hret : ret < 0) :
    (Event.dev_alloc dev ∈ run_events w s ∧ dev ≠ NULL) ∧
    (configure_console_from_dt w s).serial_console = s.serial_console ∧
    (run_events w s).filter is_dev_free = [Event.dev_free dev] := by
  obtain ⟨c, evs, ho, hc, he⟩ := run_outcome w s
  rw [he] at hinit ⊢
  rw [hc, List.filter_append, filter_dev_free_probe_events]
  clear hc he
  rcases List.mem_append.mp hinit with h | h
  · exact absurd h (not_mem_probe_events w s _ (by intro f p; simp))
  · cases ho <;> simp [lookup_events, flush_events] at h
    · obtain ⟨rfl, -, -, -, -⟩ := h
      simp [lookup_events, List.filter_append, filter_dev_free_flush_events, is_dev_free]
      assumption
    · omega

theorem init_failure_keeps_console_and_frees_witness :
    (Event.dev_alloc 7 ∈ run_events
        (board 8 (some serial0) (some ⟨some (uart_driver 7 (-1))⟩)) early_console ∧
      (7 : Ptr) ≠ NULL) ∧
    (configure_console_from_dt
        (board 8 (some serial0) (some ⟨some (uart_driver 7 (-1))⟩)) early_console).serial_console
      = early_console.serial_console ∧
    (run_events (board 8 (some serial0) (some ⟨some (uart_driver 7 (-1))⟩))
        early_console).filter is_dev_free = [Event.dev_free 7] :=
  init_failure_keeps_console_and_frees
    (board 8 (some serial0) (some ⟨some (uart_driver 7 (-1))⟩)) early_console 7 1 40 (-1) none
    (by decide) (by decide)

/-- C4: in a run where `dev_init` was called on a device and returned a
non-negative value (so a chosen node with `stdout-path` was found, the
specifier resolved, a serial driver matched and `dev_alloc` returned that
device), `serial_console` after the run is that device, whatever it was before. -/
theorem init_success_registers_device (w : World) (s : State) (dev fdt : Ptr)
    (offs ret : Int) (parms : Option (List Char))
    (hinit : Event.dev_init dev fdt offs parms ret ∈ run_events w s) (hret : 0 ≤ ret) :
    (Event.dev_alloc dev ∈ run_events w s ∧ dev ≠ NULL) ∧
    (configure_console_from_dt w s).serial_console = dev := by
  obtain ⟨c, evs, ho, hc, he⟩ := run_outcome w s
  rw [he] at hinit ⊢
  rw [hc]
  clear hc he
  rcases List.mem_append.mp hinit with h | h
  · exact absurd h (not_mem_probe_events w s _ (by intro f p; simp))
  · cases ho <;> simp [lookup_events, flush_events] at h
    · omega
    · obtain ⟨rfl, -, -, -, -⟩ := h
      simp [lookup_events]
      assumption

theorem init_success_registers_device_witness :
    (Event.dev_alloc 7 ∈ run_events
        (board 8 (some serial0_115200n8) (some ⟨some (uart_driver 7 0)⟩)) early_console ∧
      (7 : Ptr) ≠ NULL) ∧
    (configure_console_from_dt
        (board 8 (some serial0_115200n8) (some ⟨some (uart_driver 7 0)⟩))
        early_console).serial_console = 7 :=
  init_success_registers_device
    (board 8 (some serial0_115200n8) (some ⟨some (uart_driver 7 0)⟩)) early_console 7 1 40 0
    (some "115200n8".toList) (by decide) (by decide)

/-- C5: when the `stdout-path` value read by the run contains `:`, every alias
lookup of the run is for the text before the first `:` (and that lookup is
made once the value has been duplicated), and every `dev_init` of the run
receives as parameter string the whole text after that first `:`. -/
theorem directive_with_colon_is_split (w : World) (s : State) (fdt : Ptr) (offs0 : Int)
    (data : List Char)
    (hfound : chosen_found w fdt offs0)
    (hprop : w.fdt_get_property fdt offs0 STDOUT_PATH = some data)
    (hcolon : COLON ∈ directive data) :
    (∀ f name, Event.fdt_get_alias f name ∈ run_events w s →
      name = text_before_colon (directive data)) ∧
    (w.strdup_ok = true →
      Event.fdt_get_alias fdt (text_before_colon (directive data)) ∈ run_events w s) ∧
    (∀ dev f o parms ret, Event.dev_init dev f o parms ret ∈ run_events w s →
      parms = some (text_after_colon (directive data))) := by
  obtain ⟨c, evs, ho, -, he⟩ := run_outcome_found w s fdt offs0 hfound
  rw [he]
  refine ⟨?_, ?_, ?_⟩
  · intro f name h
    rcases List.mem_append.mp h with h | h
    · exact absurd h (not_mem_probe_events w s _ (by intro f p; simp))
    · cases ho <;> simp [lookup_events, flush_events] at h <;> simp_all
  · intro hm
    have hpos := chosen_found_nonneg w fdt offs0 hfound
    apply List.mem_append_right
    cases ho <;> first | omega | simp_all [lookup_events]
  · intro dev f o parms ret h
    rcases List.mem_append.mp h with h | h
    · exact absurd h (not_mem_probe_events w s _ (by intro f p; simp))
    · cases ho <;> simp [lookup_events, flush_events] at h <;> simp_all [parms_text]

theorem directive_with_colon_is_split_witness :
    Event.fdt_get_alias 1 "serial0".toList ∈ run_events
      (board 8 (some serial0_115200n8) (some ⟨some (uart_driver 7 0)⟩)) early_console ∧
    Event.dev_init 7 1 40 (some "115200n8".toList) 0 ∈ run_events
      (board 8 (some serial0_115200n8) (some ⟨some (uart_driver 7 0)⟩)) early_console ∧
    ∀ dev f o parms ret, Event.dev_init dev f o parms ret ∈ run_events
        (board 8 (some serial0_115200n8) (some ⟨some (uart_driver 7 0)⟩)) early_console →
      parms = some "115200n8".toList :=
  have h := directive_with_colon_is_split
    (board 8 (some serial0_115200n8) (some ⟨some (uart_driver 7 0)⟩)) early_console 1 8
    serial0_115200n8 (by decide) (by decide) (by decide)
  ⟨h.2.1 rfl, by decide, h.2.2⟩

/-- C6: when the `stdout-path` value read by the run contains no `:`, every
alias lookup of the run is for the whole value (and that lookup is made once
the value has been duplicated), and every `dev_init` of the run receives a
null parameter string. -/
theorem directive_without_colon_is_whole (w : World) (s : State) (fdt : Ptr) (offs0 : Int)
    (data : List Char)
    (hfound : chosen_found w fdt offs0)
    (hprop : w.fdt_get_property fdt offs0 STDOUT_PATH = some data)
    (hcolon : COLON ∉ directive data) :
    (∀ f name, Event.fdt_get_alias f name ∈ run_events w s → name = directive data) ∧
    (w.strdup_ok = true → Event.fdt_get_alias fdt (directive data) ∈ run_events w s) ∧
    (∀ dev f o parms ret, Event.dev_init dev f o parms ret ∈ run_events w s →
      parms = none) := by
  obtain ⟨c, evs, ho, -, he⟩ := run_outcome_found w s fdt offs0 hfound
  have hb := text_before_colon_of_not_mem (directive data) hcolon
  rw [he]
  refine ⟨?_, ?_, ?_⟩
  · intro f name h
    rcases List.mem_append.mp h with h | h
    · exact absurd h (not_mem_probe_events w s _ (by intro f p; simp))
    · cases ho <;> simp [lookup_events, flush_events] at h <;> simp_all
  · intro hm
    have hpos := chosen_found_nonneg w fdt offs0 hfound
    apply List.mem_append_right
    cases ho <;> first | omega | simp_all [lookup_events]
  · intro dev f o parms ret h
    rcases List.mem_append.mp h with h | h
    · exact absurd h (not_mem_probe_events w s _ (by intro f p; simp))
    · cases ho <;> simp [lookup_events, flush_events] at h <;> simp_all [parms_text]

theorem directive_without_colon_is_whole_witness :
    Event.fdt_get_alias 1 "serial0".toList ∈ run_events
      (board 8 (some serial0) (some ⟨some (uart_driver 7 0)⟩)) early_console ∧
    Event.dev_init 7 1 40 none 0 ∈ run_events
      (board 8 (some serial0) (some ⟨some (uart_driver 7 0)⟩)) early_console ∧
    ∀ dev f o parms ret, Event.dev_init dev f o parms ret ∈ run_events
        (board 8 (some serial0) (some ⟨some (uart_driver 7 0)⟩)) early_console →
      parms = none :=
  have h := directive_without_colon_is_whole
    (board 8 (some serial0) (some ⟨some (uart_driver 7 0)⟩)) early_console 1 8
    serial0 (by decide) (by decide) (by decide)
  ⟨h.2.1 rfl, by decide, h.2.2⟩

/-- C7: for the blob and specifier of the run's alias lookup: if the blob
defines an alias of that name, the path the run looks up is the alias's target
(the specifier text itself is not looked up as a path) and the offset given to
driver matching and to `dev_init` is the result of that lookup; if the blob
defines no such alias, the path looked up is the specifier and the offset is
the result of looking that up. -/
theorem alias_target_else_specifier (w : World) (s : State) (fdt : Ptr) (spec : List Char)
    (hlookup : Event.fdt_get_alias fdt spec ∈ run_events w s) :
    (∀ target, w.fdt_get_alias fdt spec = some target →
      Event.fdt_path_offset fdt target ∈ run_events w s ∧
      (∀ f p, Event.fdt_path_offset f p ∈ run_events w s →
        p = SECURE_CHOSEN ∨ p = CHOSEN ∨ p = target) ∧
      (∀ f o, Event.dt_find_compatible_driver f o ∈ run_events w s →
        o = w.fdt_path_offset fdt target) ∧
      (∀ dev f o parms ret, Event.dev_init dev f o parms ret ∈ run_events w s →
        o = w.fdt_path_offset fdt target)) ∧
    (w.fdt_get_alias fdt spec = none →
      Event.fdt_path_offset fdt spec ∈ run_events w s ∧
      (∀ f o, Event.dt_find_compatible_driver f o ∈ run_events w s →
        o = w.fdt_path_offset fdt spec) ∧
      (∀ dev f o parms ret, Event.dev_init dev f o parms ret ∈ run_events w s →
        o = w.fdt_path_offset fdt spec)) := by
  obtain ⟨c, evs, ho, -, he⟩ := run_outcome w s
  rw [he] at hlookup ⊢
  clear he
  have hlk : Event.fdt_get_alias fdt spec ∈ evs := by
    rcases List.mem_append.mp hlookup with h | h
    · exact absurd h (not_mem_probe_events w s _ (by intro f p; simp))
    · exact h
  clear hlookup
  have hpath : ∀ f p, Event.fdt_path_offset f p ∈ probe_events w s →
      p = SECURE_CHOSEN ∨ p = CHOSEN := by
    intro f p h
    obtain ⟨f1, p1, heq, -, hp⟩ := probe_events_lookup w s _ h
    cases heq
    exact hp
  refine ⟨?_, ?_⟩
  · intro target ht
    refine ⟨?_, ?_, ?_, ?_⟩
    · apply List.mem_append_right
      cases ho <;> simp [lookup_events, flush_events] at hlk <;>
        simp_all [lookup_events, uart_path]
    · intro f p h
      rcases List.mem_append.mp h with h | h
      · rcases hpath f p h with h | h
        · exact Or.inl h
        · exact Or.inr (Or.inl h)
      · right; right
        cases ho <;> simp [lookup_events, flush_events] at hlk <;>
          simp [lookup_events, flush_events] at h <;> simp_all [uart_path]
    · intro f o h
      rcases List.mem_append.mp h with h | h
      · exact absurd h (not_mem_probe_events w s _ (by intro f p; simp))
      · cases ho <;> simp [lookup_events, flush_events] at hlk <;>
          simp [lookup_events, flush_events] at h <;> simp_all [node_offset, uart_path]
    · intro dev f o parms ret h
      rcases List.mem_append.mp h with h | h
      · exact absurd h (not_mem_probe_events w s _ (by intro f p; simp))
      · cases ho <;> simp [lookup_events, flush_events] at hlk <;>
          simp [lookup_events, flush_events] at h <;> simp_all [node_offset, uart_path]
  · intro ht
    refine ⟨?_, ?_, ?_⟩
    · apply List.mem_append_right
      cases ho <;> simp [lookup_events, flush_events] at hlk <;>
        simp_all [lookup_events, uart_path]
    · intro f o h
      rcases List.mem_append.mp h with h | h
      · exact absurd h (not_mem_probe_events w s _ (by intro f p; simp))
      · cases ho <;> simp [lookup_events, flush_events] at hlk <;>
          simp [lookup_events, flush_events] at h <;> simp_all [node_offset, uart_path]
    · intro dev f o parms ret h
      rcases List.mem_append.mp h with h | h
      · exact absurd h (not_mem_probe_events w s _ (by intro f p; simp))
      · cases ho <;> simp [lookup_events, flush_events] at hlk <;>
          simp [lookup_events, flush_events] at h <;> simp_all [node_offset, uart_path]

theorem alias_target_else_specifier_witness :
    Event.fdt_path_offset 1 "/serial@1000".toList ∈ run_events
      (board 8 (some serial0) (some ⟨some (uart_driver 7 0)⟩)) early_console ∧
    Event.dev_init 7 1 40 none 0 ∈ run_events
      (board 8 (some serial0) (some ⟨some (uart_driver 7 0)⟩)) early_console ∧
    (∀ dev f o parms ret, Event.dev_init dev f o parms ret ∈ run_events
        (board 8 (some serial0) (some ⟨some (uart_driver 7 0)⟩)) early_console →
      o = 40) ∧
    (board 8 (some serial0) (some ⟨some (uart_driver 7 0)⟩)).fdt_path_offset 1
      "serial0".toList = -1 :=
  have h := (alias_target_else_specifier
    (board 8 (some serial0) (some ⟨some (uart_driver 7 0)⟩)) early_console 1
    "serial0".toList (by decide)).1 "/serial@1000".toList (by decide)
  ⟨h.1, by decide, h.2.2.2, by decide⟩

/-- C8: once a chosen node with `stdout-path` is found, on every abort other
than an initialization failure (the directive cannot be duplicated, the
specifier or its alias target does not resolve to a node, no compatible driver
is found, the driver descriptor carries no serial driver, or `dev_alloc`
returns null) `serial_console` after the run is what it was before. -/
theorem abort_keeps_console (w : World) (s : State) (fdt : Ptr) (offs0 : Int)
    (data : List Char)
    (hfound : chosen_found w fdt offs0)
    (hprop : w.fdt_get_property fdt offs0 STDOUT_PATH = some data)
    (habort : w.strdup_ok = false ∨
      node_offset w fdt data < 0 ∨
      w.dt_find_compatible_driver fdt (node_offset w fdt data) = none ∨
      (∃ d, w.dt_find_compatible_driver fdt (node_offset w fdt data) = some d ∧
        d.driver = none) ∨
      (∃ d sd, w.dt_find_compatible_driver fdt (node_offset w fdt data) = some d ∧
        d.driver = some sd ∧ sd.dev_alloc () = NULL)) :
    (configure_console_from_dt w s).serial_console = s.serial_console := by
  obtain ⟨c, evs, ho, hc, -⟩ := run_outcome_found w s fdt offs0 hfound
  rw [hc]
  cases ho with
  | no_directive h => rfl
  | silenced h hp => rw [hprop] at hp; cases hp
  | no_memory h d hp hm => rfl
  | no_node h d hp hm hn => rfl
  | no_driver h d hp hm hn hd => rfl
  | no_serial_driver h d hp hm hn dd hd hs => rfl
  | no_device h d hp hm hn dd hd sd hs ha => rfl
  | init_failed h d hp hm hn dd hd sd hs ha hi => rfl
  | switched h d hp hm hn dd hd sd hs ha hi =>
    rw [hprop] at hp
    cases hp
    rcases habort with h1 | h1 | h1 | ⟨d1, h1, h2⟩ | ⟨d1, sd1, h1, h2, h3⟩
    · rw [hm] at h1; cases h1
    · omega
    · rw [hd] at h1; cases h1
    · rw [hd] at h1; cases h1; rw [hs] at h2; cases h2
    · rw [hd] at h1; cases h1; rw [hs] at h2; cases h2; exact absurd h3 ha

theorem abort_keeps_console_witness :
    (configure_console_from_dt (board 8 (some serial0_115200n8) none)
      early_console).serial_console = early_console.serial_console :=
  abort_keeps_console (board 8 (some serial0_115200n8) none) early_console 1 8
    serial0_115200n8 (by decide) (by decide) (Or.inr (Or.inr (Or.inl rfl)))

/-- C9: for a chip that has received no character yet, after
`register_serial_console(chip)` one `console_putc` of a line feed makes exactly
two `putc` calls, carriage return then line feed, both on that chip; and one
`console_putc` of any other character makes exactly one `putc` call, of that
character, on that chip. -/
theorem putc_newline_is_cr_lf (chip : Ptr) (s : State) (hchip : chip ≠ NULL)
    (hfresh : emissions chip s.trace = []) :
    ((console_putc LF (register_serial_console chip s)).trace =
        s.trace ++ [Event.putc chip CR, Event.putc chip LF] ∧
      emissions chip (console_putc LF (register_serial_console chip s)).trace = [CR, LF]) ∧
    ∀ ch : Int, ch ≠ LF →
      (console_putc ch (register_serial_console chip s)).trace =
          s.trace ++ [Event.putc chip ch] ∧
        emissions chip (console_putc ch (register_serial_console chip s)).trace = [ch] := by
  have h1 : (console_putc LF (register_serial_console chip s)).trace =
      s.trace ++ [Event.putc chip CR, Event.putc chip LF] := by
    simp [console_putc, register_serial_console, emit, hchip]
  have h2 : ∀ ch : Int, ch ≠ LF →
      (console_putc ch (register_serial_console chip s)).trace =
        s.trace ++ [Event.putc chip ch] := by
    intro ch hch
    simp [console_putc, register_serial_console, emit, hchip, hch]
  refine ⟨⟨h1, ?_⟩, fun ch hch => ⟨h2 ch hch, ?_⟩⟩
  · rw [h1, emissions_append, hfresh]
    simp [emissions, putc_on]
  · rw [h2 ch hch, emissions_append, hfresh]
    simp [emissions, putc_on]

theorem putc_newline_is_cr_lf_witness :
    emissions 7 (console_putc LF (register_serial_console 7 early_console)).trace = [CR, LF] ∧
    emissions 7 (console_putc 65 (register_serial_console 7 early_console)).trace = [65] :=
  have h := putc_newline_is_cr_lf 7 early_console (by decide) (by decide)
  ⟨h.1.2, (h.2 65 (by decide)).2⟩

/-- C10: with `serial_console` null, any number of `console_flush` calls, and
any number of `console_putc` calls of any character, return the state they
were given: no call is added to the trace and `serial_console` stays null. -/
theorem console_off_is_inert (s : State) (hoff : s.serial_console = NULL) (n : Nat)
    (ch : Int) :
    (Nat.iterate console_flush n s = s ∧ Nat.iterate (console_putc ch) n s = s) ∧
    ((Nat.iterate console_flush n s).trace = s.trace ∧
      (Nat.iterate console_flush n s).serial_console = NULL) ∧
    ((Nat.iterate (console_putc ch) n s).trace = s.trace ∧
      (Nat.iterate (console_putc ch) n s).serial_console = NULL) := by
  have h1 : Nat.iterate console_flush n s = s :=
    Function.iterate_fixed (console_flush_off s hoff) n
  have h2 : Nat.iterate (console_putc ch) n s = s :=
    Function.iterate_fixed (console_putc_off ch s hoff) n
  rw [h1, h2]
  exact ⟨⟨rfl, rfl⟩, ⟨rfl, hoff⟩, ⟨rfl, hoff⟩⟩

theorem console_off_is_inert_witness :
    Nat.iterate console_flush 5 ⟨NULL, [Event.free]⟩ = ⟨NULL, [Event.free]⟩ ∧
    Nat.iterate (console_putc LF) 5 ⟨NULL, [Event.free]⟩ = ⟨NULL, [Event.free]⟩ :=
  (console_off_is_inert ⟨NULL, [Event.free]⟩ rfl 5 LF).1

/-! ## The order of the probe -/

theorem find_chosen_node_fst (w : World) (fdt : Ptr) (s : State) :
    (find_chosen_node w fdt s).1 =
      if fdt = NULL then -1
      else if 0 ≤ w.fdt_path_offset fdt SECURE_CHOSEN then w.fdt_path_offset fdt SECURE_CHOSEN
      else w.fdt_path_offset fdt CHOSEN := by
  unfold find_chosen_node
  by_cases h0 : fdt = NULL
  · simp [h0]
  · by_cases h1 : 0 ≤ w.fdt_path_offset fdt SECURE_CHOSEN
    · have h2 : ¬ w.fdt_path_offset fdt SECURE_CHOSEN < 0 := by omega
      simp [h0, h1, h2]
    · have h2 : w.fdt_path_offset fdt SECURE_CHOSEN < 0 := by omega
      simp [h0, h1, h2]

theorem probe_fst (w : World) (s : State) :
    (probe w s).1 =
      (if 0 ≤ (find_chosen_node w w.get_embedded_dt s).1 then w.get_embedded_dt
        else w.get_external_dt) ∧
    (probe w s).2.1 =
      (if 0 ≤ (find_chosen_node w w.get_embedded_dt s).1 then
        (find_chosen_node w w.get_embedded_dt s).1
        else (find_chosen_node w w.get_external_dt s).1) := by
  unfold probe
  by_cases h : (find_chosen_node w w.get_embedded_dt s).1 < 0
  · have h2 : ¬ 0 ≤ (find_chosen_node w w.get_embedded_dt s).1 := by omega
    simp only [h, h2, if_true, if_false, true_and]
    rw [find_chosen_node_fst, find_chosen_node_fst]
  · have h2 : 0 ≤ (find_chosen_node w w.get_embedded_dt s).1 := by omega
    simp only [h, h2, if_true, if_false, and_self]

theorem probe_indep (w : World) (s s2 : State) :
    (probe w s).1 = (probe w s2).1 ∧ (probe w s).2.1 = (probe w s2).2.1 := by
  obtain ⟨h1, h2⟩ := probe_fst w s
  obtain ⟨h3, h4⟩ := probe_fst w s2
  rw [h1, h2, h3, h4]
  simp only [find_chosen_node_fst, and_self]

theorem probe_first_chosen (w : World) (s : State) :
    first_chosen w =
      if 0 ≤ (probe w s).2.1 then some ((probe w s).1, (probe w s).2.1) else none := by
  obtain ⟨h1, h2⟩ := probe_fst w s
  rw [h1, h2]
  simp only [find_chosen_node_fst, first_chosen, chosen_candidates]
  by_cases e0 : w.get_embedded_dt = NULL <;>
  by_cases e1 : 0 ≤ w.fdt_path_offset w.get_embedded_dt SECURE_CHOSEN <;>
  by_cases e2 : 0 ≤ w.fdt_path_offset w.get_embedded_dt CHOSEN <;>
  by_cases x0 : w.get_external_dt = NULL <;>
  by_cases x1 : 0 ≤ w.fdt_path_offset w.get_external_dt SECURE_CHOSEN <;>
  by_cases x2 : 0 ≤ w.fdt_path_offset w.get_external_dt CHOSEN <;>
  simp [List.find?, node_exists, e0, e1, e2, x0, x1, x2]

theorem probe_chosen (w : World) (s : State) (h : 0 ≤ (probe w s).2.1) :
    chosen_found w (probe w s).1 (probe w s).2.1 := by
  obtain ⟨h1, h2⟩ := probe_fst w s
  rw [h2] at h
  rw [h1, h2]
  simp only [find_chosen_node_fst] at h ⊢
  unfold chosen_found chosen_node_at no_chosen_node
  by_cases e0 : w.get_embedded_dt = NULL <;>
  by_cases e1 : 0 ≤ w.fdt_path_offset w.get_embedded_dt SECURE_CHOSEN <;>
  by_cases e2 : 0 ≤ w.fdt_path_offset w.get_embedded_dt CHOSEN <;>
  by_cases x0 : w.get_external_dt = NULL <;>
  by_cases x1 : 0 ≤ w.fdt_path_offset w.get_external_dt SECURE_CHOSEN <;>
  simp [e0, e1, e2, x0, x1] at h ⊢ <;> omega

theorem chosen_node_at_iff (w : World) (fdt : Ptr) :
    (∃ o, chosen_node_at w fdt o) ↔ ¬ no_chosen_node w fdt := by
  unfold chosen_node_at no_chosen_node
  constructor
  · rintro ⟨o, h0, ho, h | ⟨h1, h2⟩⟩ <;> intro hn <;> rcases hn with hn | ⟨hn1, hn2⟩ <;>
      first | exact h0 hn | omega
  · intro hn
    have h0 : fdt ≠ NULL := fun e => hn (Or.inl e)
    by_cases h1 : 0 ≤ w.fdt_path_offset fdt SECURE_CHOSEN
    · exact ⟨_, h0, h1, Or.inl rfl⟩
    · have h2 : 0 ≤ w.fdt_path_offset fdt CHOSEN := by
        by_contra h2
        exact hn (Or.inr ⟨by omega, by omega⟩)
      exact ⟨_, h0, h2, Or.inr ⟨by omega, rfl⟩⟩

/-- C11: the node whose `stdout-path` a run reads is the first that exists
among embedded `/secure-chosen`, embedded `/chosen`, external `/secure-chosen`
and external `/chosen` (and no property is read when none exists); it is in
the embedded blob when that blob has a chosen node and in the external blob
when the embedded blob is absent or has none; and an embedded chosen node
without `stdout-path` ends the run with no console, whatever the external
blob holds. -/
theorem chosen_node_is_first_in_order (w : World) (s : State) :
    (∀ f o name, Event.fdt_get_property f o name ∈ run_events w s ↔
      (name = STDOUT_PATH ∧ first_chosen w = some (f, o))) ∧
    ((∃ o, chosen_node_at w w.get_embedded_dt o) →
      ∀ f o name, Event.fdt_get_property f o name ∈ run_events w s →
        f = w.get_embedded_dt) ∧
    (no_chosen_node w w.get_embedded_dt →
      ∀ f o name, Event.fdt_get_property f o name ∈ run_events w s →
        f = w.get_external_dt) ∧
    (∀ o, chosen_node_at w w.get_embedded_dt o →
      w.fdt_get_property w.get_embedded_dt o STDOUT_PATH = none →
      (configure_console_from_dt w s).serial_console = NULL) := by
  have hfirst : ∀ f o name, Event.fdt_get_property f o name ∈ run_events w s ↔
      (name = STDOUT_PATH ∧ first_chosen w = some (f, o)) := by
    intro f o name
    obtain ⟨c, evs, ho, -, he⟩ := run_outcome w s
    rw [he, probe_first_chosen w s, List.mem_append]
    have hnp : Event.fdt_get_property f o name ∉ probe_events w s :=
      not_mem_probe_events w s _ (by intro f p; simp)
    cases ho <;> simp [lookup_events, flush_events, hnp] <;>
      first | omega | (constructor <;> intro h <;> simp_all)
  have hblob : ∀ f o name, Event.fdt_get_property f o name ∈ run_events w s →
      chosen_found w f o := by
    intro f o name h
    have h1 := ((hfirst f o name).mp h).2
    rw [probe_first_chosen w s] at h1
    by_cases hp : 0 ≤ (probe w s).2.1
    · rw [if_pos hp] at h1
      cases h1
      exact probe_chosen w s hp
    · rw [if_neg hp] at h1
      cases h1
  refine ⟨hfirst, ?_, ?_, ?_⟩
  · intro hemb f o name h
    rcases hblob f o name h with ⟨hf, -⟩ | ⟨hno, -, -⟩
    · exact hf
    · exact absurd hno ((chosen_node_at_iff w _).mp hemb)
  · intro hno f o name h
    rcases hblob f o name h with ⟨hf, hat⟩ | ⟨-, hf, -⟩
    · subst hf
      exact absurd hno ((chosen_node_at_iff w _).mp ⟨o, hat⟩)
    · exact hf
  · intro o hat hprop
    obtain ⟨c, evs, ho, hc, -⟩ := run_outcome_found w s _ o (Or.inl ⟨rfl, hat⟩)
    have hpos := hat.2.1
    rw [hc]
    cases ho <;> first | rfl | omega | simp_all

theorem chosen_node_is_first_in_order_witness :
    (Event.fdt_get_property 1 12 STDOUT_PATH ∈ run_events
        (two_blob_board (-1) 12 4 16 none (some uart_9600_8n1)) early_console ∧
      (configure_console_from_dt (two_blob_board (-1) 12 4 16 none (some uart_9600_8n1))
        early_console).serial_console = NULL) ∧
    Event.fdt_get_property 2 16 STDOUT_PATH ∈ run_events
      (two_blob_board (-1) (-1) (-1) 16 none (some uart_9600_8n1)) early_console :=
  ⟨⟨((chosen_node_is_first_in_order
        (two_blob_board (-1) 12 4 16 none (some uart_9600_8n1)) early_console).1
        1 12 STDOUT_PATH).mpr ⟨rfl, by decide⟩,
      (chosen_node_is_first_in_order
        (two_blob_board (-1) 12 4 16 none (some uart_9600_8n1)) early_console).2.2.2
        12 (by decide) (by decide)⟩,
    ((chosen_node_is_first_in_order
      (two_blob_board (-1) (-1) (-1) 16 none (some uart_9600_8n1)) early_console).1
      2 16 STDOUT_PATH).mpr ⟨rfl, by decide⟩⟩


/-! ## What a run registers -/

theorem register_indep (w : World) (s1 s2 : State)
    (hch : (configure_console_from_dt w s1).serial_console ≠ s1.serial_console) :
    (configure_console_from_dt w s2).serial_console =
      (configure_console_from_dt w s1).serial_console ∧
    ((configure_console_from_dt w s1).serial_console = NULL ∨
      (Event.dev_alloc (configure_console_from_dt w s1).serial_console ∈ run_events w s2 ∧
        ∃ f o p r, Event.dev_init (configure_console_from_dt w s1).serial_console f o p r ∈
          run_events w s2 ∧ 0 ≤ r)) := by
  obtain ⟨c1, evs1, ho1, hc1, -⟩ := run_outcome w s1
  obtain ⟨c2, evs2, ho2, hc2, he2⟩ := run_outcome w s2
  rw [(probe_indep w s2 s1).1, (probe_indep w s2 s1).2] at ho2
  rw [hc1] at hch ⊢
  rw [hc2, he2]
  clear hc1 hc2 he2
  generalize (probe w s1).1 = f at ho1 ho2
  generalize (probe w s1).2.1 = o at ho1 ho2
  cases ho1 with
  | no_directive h => exact absurd rfl hch
  | no_memory h d hp hm => exact absurd rfl hch
  | no_node h d hp hm hn => exact absurd rfl hch
  | no_driver h d hp hm hn hd => exact absurd rfl hch
  | no_serial_driver h d hp hm hn dd hd hs => exact absurd rfl hch
  | no_device h d hp hm hn dd hd sd hs ha => exact absurd rfl hch
  | init_failed h d hp hm hn dd hd sd hs ha hi => exact absurd rfl hch
  | silenced h hp =>
    refine ⟨?_, Or.inl rfl⟩
    cases ho2 <;> first | rfl | omega | simp_all
  | switched h d hp hm hn dd hd sd hs ha hi =>
    cases ho2 with
    | no_directive h2 => omega
    | silenced h2 hp2 => rw [hp] at hp2; cases hp2
    | no_memory h2 d2 hp2 hm2 => rw [hm] at hm2; cases hm2
    | no_node h2 d2 hp2 hm2 hn2 => rw [hp] at hp2; cases hp2; omega
    | no_driver h2 d2 hp2 hm2 hn2 hd2 => rw [hp] at hp2; cases hp2; rw [hd] at hd2; cases hd2
    | no_serial_driver h2 d2 hp2 hm2 hn2 dd2 hd2 hs2 =>
      rw [hp] at hp2; cases hp2; rw [hd] at hd2; cases hd2; rw [hs] at hs2; cases hs2
    | no_device h2 d2 hp2 hm2 hn2 dd2 hd2 sd2 hs2 ha2 =>
      rw [hp] at hp2; cases hp2; rw [hd] at hd2; cases hd2; rw [hs] at hs2; cases hs2
      exact absurd ha2 ha
    | init_failed h2 d2 hp2 hm2 hn2 dd2 hd2 sd2 hs2 ha2 hi2 =>
      rw [hp] at hp2; cases hp2; rw [hd] at hd2; cases hd2; rw [hs] at hs2; cases hs2
      omega
    | switched h2 d2 hp2 hm2 hn2 dd2 hd2 sd2 hs2 ha2 hi2 =>
      rw [hp] at hp2; cases hp2; rw [hd] at hd2; cases hd2; rw [hs] at hs2; cases hs2
      refine ⟨rfl, Or.inr ⟨?_, f, node_offset w f d, parms_text (directive d), _, ?_, hi⟩⟩
      · simp [lookup_events]
      · simp [lookup_events]

theorem filter_dev_init_probe_events (w : World) (s : State) :
    (probe_events w s).filter is_dev_init = [] := by
  rw [List.filter_eq_nil_iff]
  intro e he
  obtain ⟨f, p, rfl, _⟩ := probe_events_lookup w s e he
  simp [is_dev_init]

theorem filter_dev_init_flush_events (c : Ptr) :
    (flush_events c).filter is_dev_init = [] := by
  unfold flush_events
  by_cases h : c = NULL <;> simp [h, is_dev_init]

theorem filter_dev_init_run (w : World) (s : State) :
    (run_events w s).filter is_dev_init = [] ∨
      ∃ e, (run_events w s).filter is_dev_init = [e] := by
  obtain ⟨c, evs, ho, -, he⟩ := run_outcome w s
  rw [he, List.filter_append, filter_dev_init_probe_events, List.nil_append]
  cases ho <;>
    simp [lookup_events, List.filter_append, filter_dev_init_flush_events, is_dev_init]

theorem dev_init_unique (w : World) (s : State) (e1 e2 : Event)
    (h1 : e1 ∈ run_events w s) (h2 : e2 ∈ run_events w s)
    (hi1 : is_dev_init e1 = true) (hi2 : is_dev_init e2 = true) : e1 = e2 := by
  have m1 : e1 ∈ (run_events w s).filter is_dev_init := List.mem_filter.mpr ⟨h1, hi1⟩
  have m2 : e2 ∈ (run_events w s).filter is_dev_init := List.mem_filter.mpr ⟨h2, hi2⟩
  rcases filter_dev_init_run w s with h | ⟨e, h⟩
  · rw [h] at m1
    cases m1
  · rw [h] at m1 m2
    rw [List.mem_singleton.mp m1, List.mem_singleton.mp m2]

/-- C12: a run changes `serial_console` to a non-null chip only if that chip
was returned by the run's `dev_alloc` and the run's `dev_init` on it returned
a non-negative value (and no `dev_init` of the run failed on it). What a run
writes to `serial_console` does not depend on the console before: either every
run on the same blobs keeps its console (`register_serial_console` is not
called) or every such run ends with the same value `h`, and a non-null `h` is
the chip on which the only `dev_init` of the run was called and succeeded. -/
theorem only_initialized_device_is_registered (w : World) (s : State) :
    ((configure_console_from_dt w s).serial_console ≠ NULL →
      (configure_console_from_dt w s).serial_console ≠ s.serial_console →
      Event.dev_alloc (configure_console_from_dt w s).serial_console ∈ run_events w s ∧
      (∃ f o p r, Event.dev_init (configure_console_from_dt w s).serial_console f o p r ∈
          run_events w s ∧ 0 ≤ r) ∧
      (∀ f o p r, Event.dev_init (configure_console_from_dt w s).serial_console f o p r ∈
          run_events w s → 0 ≤ r)) ∧
    ∃ reg : Option Ptr,
      (∀ s2, (configure_console_from_dt w s2).serial_console = reg.getD s2.serial_console) ∧
      ∀ h, reg = some h → h ≠ NULL →
        Event.dev_alloc h ∈ run_events w s ∧
        (∃ f o p r, Event.dev_init h f o p r ∈ run_events w s ∧ 0 ≤ r) ∧
        (∀ dev f o p r, Event.dev_init dev f o p r ∈ run_events w s → dev = h ∧ 0 ≤ r) := by
  have key : ∀ s1 h, (configure_console_from_dt w s1).serial_console = h →
      h ≠ s1.serial_console → h ≠ NULL →
      Event.dev_alloc h ∈ run_events w s ∧
        (∃ f o p r, Event.dev_init h f o p r ∈ run_events w s ∧ 0 ≤ r) ∧
        (∀ dev f o p r, Event.dev_init dev f o p r ∈ run_events w s → dev = h ∧ 0 ≤ r) := by
    intro s1 h hfin hch hnn
    subst hfin
    rcases (register_indep w s1 s hch).2 with h0 | ⟨ha, f, o, p, r, hi, hr⟩
    · exact absurd h0 hnn
    · refine ⟨ha, ⟨f, o, p, r, hi, hr⟩, ?_⟩
      intro dev f2 o2 p2 r2 hi2
      have := dev_init_unique w s _ _ hi hi2 rfl rfl
      cases this
      exact ⟨rfl, hr⟩
  refine ⟨?_, ?_⟩
  · intro hnn hch
    obtain ⟨h1, h2, h3⟩ := key s _ rfl hch hnn
    exact ⟨h1, h2, fun f o p r hi => (h3 _ f o p r hi).2⟩
  · by_cases hex : ∃ s1, (configure_console_from_dt w s1).serial_console ≠ s1.serial_console
    · obtain ⟨s1, hch⟩ := hex
      refine ⟨some (configure_console_from_dt w s1).serial_console, ?_, ?_⟩
      · intro s2
        exact (register_indep w s1 s2 hch).1
      · intro h hreg hnn
        cases hreg
        exact key s1 _ rfl hch hnn
    · refine ⟨none, ?_, ?_⟩
      · intro s2
        by_contra hne
        exact hex ⟨s2, hne⟩
      · intro h hreg
        cases hreg

theorem only_initialized_device_is_registered_witness :
    Event.dev_alloc 7 ∈ run_events
      (board 8 (some serial0_115200n8) (some ⟨some (uart_driver 7 0)⟩)) early_console ∧
    (∃ f o p r, Event.dev_init 7 f o p r ∈ run_events
      (board 8 (some serial0_115200n8) (some ⟨some (uart_driver 7 0)⟩)) early_console ∧
      0 ≤ r) :=
  have h := (only_initialized_device_is_registered
    (board 8 (some serial0_115200n8) (some ⟨some (uart_driver 7 0)⟩)) early_console).1
    (by decide) (by decide)
  ⟨h.1, h.2.1⟩

/-! ## Console uses after a registration -/

theorem run_calls_on (chip : Ptr) (hchip : chip ≠ NULL) (calls : List Call) :
    ∀ s : State, s.serial_console = chip →
      run_calls calls s = ⟨chip, s.trace ++ calls_events chip calls⟩ := by
  induction calls with
  | nil =>
    intro s hs
    cases s
    simp_all [run_calls, calls_events]
  | cons c cs ih =>
    intro s hs
    cases c with
    | putc ch =>
      have h1 : (console_putc ch s).serial_console = chip := by
        unfold console_putc
        by_cases hl : ch = LF <;> simp [hs, hchip, hl, emit]
      have h2 : (console_putc ch s).trace = s.trace ++ call_events chip (Call.putc ch) := by
        unfold console_putc call_events
        by_cases hl : ch = LF <;> simp [hs, hchip, hl, emit]
      simp only [run_calls, calls_events]
      rw [ih _ h1, h2, List.append_assoc]
    | flush =>
      have h1 : (console_flush s).serial_console = chip := by
        unfold console_flush
        simp [hs, hchip, emit]
      have h2 : (console_flush s).trace = s.trace ++ call_events chip Call.flush := by
        unfold console_flush call_events
        simp [hs, hchip, emit]
      simp only [run_calls, calls_events]
      rw [ih _ h1, h2, List.append_assoc]

theorem calls_events_on (chip : Ptr) (calls : List Call) (e : Event)
    (he : e ∈ calls_events chip calls) :
    (∃ ch, e = Event.putc chip ch) ∨ e = Event.flush chip := by
  induction calls with
  | nil => simp [calls_events] at he
  | cons c cs ih =>
    simp only [calls_events, List.mem_append] at he
    rcases he with he | he
    · cases c with
      | putc ch =>
        unfold call_events at he
        by_cases hl : ch = LF
        · simp [hl] at he
          rcases he with rfl | rfl
          · exact Or.inl ⟨_, rfl⟩
          · exact Or.inl ⟨_, rfl⟩
        · simp [hl] at he
          exact Or.inl ⟨_, he⟩
      | flush =>
        simp [call_events] at he
        exact Or.inr he
    · exact ih he

/-- C13: after `register_serial_console(x)` the console is `x`, whatever it
was; every later sequence of `console_putc` and `console_flush` calls keeps it
`x`, calls nothing when `x` is null and otherwise calls exactly the `putc` and
`flush` operations of those uses, all of them on `x`; and of two successive
registrations only the second one counts. -/
theorem register_replaces_console (s : State) (x : Ptr) :
    (register_serial_console x s).serial_console = x ∧
    (∀ calls : List Call,
      (run_calls calls (register_serial_console x s)).serial_console = x ∧
      (run_calls calls (register_serial_console x s)).trace =
        s.trace ++ (if x = NULL then [] else calls_events x calls)) ∧
    (∀ (calls : List Call) (e : Event), e ∈ calls_events x calls →
      (∃ ch, e = Event.putc x ch) ∨ e = Event.flush x) ∧
    ∀ y : Ptr,
      register_serial_console y (register_serial_console x s) = register_serial_console y s := by
  refine ⟨rfl, ?_, fun calls e he => calls_events_on x calls e he, fun y => rfl⟩
  intro calls
  by_cases hx : x = NULL
  · have h0 : (register_serial_console x s).serial_console = NULL := hx
    rw [run_calls_off calls _ h0, if_pos hx]
    simp [register_serial_console]
  · rw [run_calls_on x hx calls _ rfl, if_neg hx]
    simp [register_serial_console]

theorem register_replaces_console_witness :
    (run_calls [Call.putc 65, Call.putc LF, Call.flush]
        (register_serial_console 7 early_console)).trace =
      [Event.putc 7 65, Event.putc 7 CR, Event.putc 7 LF, Event.flush 7] ∧
    (run_calls [Call.putc 65, Call.putc LF, Call.flush]
        (register_serial_console NULL early_console)).trace = [] :=
  ⟨((register_replaces_console early_console 7).2.1 _).2,
    ((register_replaces_console early_console NULL).2.1 _).2⟩


/-! ## The flush before initialization -/

theorem probe_events_plain (w : World) (s : State) (e : Event) (he : e ∈ probe_events w s) :
    is_flush e = false ∧ is_dev_init e = false := by
  obtain ⟨f, p, rfl, -⟩ := probe_events_lookup w s e he
  exact ⟨rfl, rfl⟩

/-- C15: a run flushes only the console that was active before it, and only
when its `dev_alloc` returned a device; when a console was active and
`dev_alloc` returned a device, the run's calls are `dev_alloc`, then the flush
of the previous console, then `dev_init` on the new device, in this order and
next to each other, with no other flush and no other `dev_init` in the run,
whether `dev_init` then succeeds or fails. -/
theorem previous_console_flushed_before_init (w : World) (s : State) :
    (∀ chip, Event.flush chip ∈ run_events w s →
      chip = s.serial_console ∧ chip ≠ NULL ∧
        ∃ dev, dev ≠ NULL ∧ Event.dev_alloc dev ∈ run_events w s) ∧
    (s.serial_console ≠ NULL → ∀ dev, dev ≠ NULL → Event.dev_alloc dev ∈ run_events w s →
      ∃ pre post f o p r,
        run_events w s =
          pre ++ [Event.dev_alloc dev, Event.flush s.serial_console,
            Event.dev_init dev f o p r] ++ post ∧
        ∀ e ∈ pre ++ post, is_flush e = false ∧ is_dev_init e = false) ∧
    (s.serial_console ≠ NULL → ∀ dev f o p r,
      Event.dev_init dev f o p r ∈ run_events w s →
        Event.flush s.serial_console ∈ run_events w s) := by
  obtain ⟨c, evs, ho, -, he⟩ := run_outcome w s
  rw [he]
  clear he
  refine ⟨?_, ?_, ?_⟩
  · intro chip h
    rcases List.mem_append.mp h with h | h
    · exact absurd h (not_mem_probe_events w s _ (by intro f p; simp))
    · by_cases hc : s.serial_console = NULL
      · cases ho <;> simp [lookup_events, flush_events, hc] at h
      · cases ho with
        | init_failed h0 data hp hm hn d hd sd hs ha hi =>
          simp [lookup_events, flush_events, hc] at h
          subst h
          refine ⟨rfl, hc, sd.dev_alloc (), ha, ?_⟩
          apply List.mem_append_right
          simp [lookup_events]
        | switched h0 data hp hm hn d hd sd hs ha hi =>
          simp [lookup_events, flush_events, hc] at h
          subst h
          refine ⟨rfl, hc, sd.dev_alloc (), ha, ?_⟩
          apply List.mem_append_right
          simp [lookup_events]
        | _ => simp [lookup_events] at h
  · intro hc dev hdev h
    rcases List.mem_append.mp h with h | h
    · exact absurd h (not_mem_probe_events w s _ (by intro f p; simp))
    · cases ho with
      | no_device h0 data hp hm hn d hd sd hs ha =>
        simp [lookup_events] at h
        exact absurd h hdev
      | init_failed h0 data hp hm hn d hd sd hs ha hi =>
        simp [lookup_events, flush_events, hc] at h
        subst h
        refine ⟨probe_events w s ++ lookup_events w (probe w s).1 (probe w s).2.1 data ++
            [Event.dt_find_compatible_driver (probe w s).1 (node_offset w (probe w s).1 data)],
          [Event.dev_free (sd.dev_alloc ()), Event.free],
          (probe w s).1, node_offset w (probe w s).1 data, parms_text (directive data),
          sd.dev_init (sd.dev_alloc ()) (probe w s).1 (node_offset w (probe w s).1 data)
            (parms_text (directive data)), ?_, ?_⟩
        · simp [flush_events, hc]
        · intro e he
          simp only [List.mem_append, List.mem_cons, List.mem_singleton, List.not_mem_nil,
            or_false, lookup_events] at he
          rcases he with ((he | he) | he) | he
          · exact probe_events_plain w s e he
          · rcases he with rfl | rfl | rfl | rfl <;> exact ⟨rfl, rfl⟩
          · subst he; exact ⟨rfl, rfl⟩
          · rcases he with rfl | rfl <;> exact ⟨rfl, rfl⟩
      | switched h0 data hp hm hn d hd sd hs ha hi =>
        simp [lookup_events, flush_events, hc] at h
        subst h
        refine ⟨probe_events w s ++ lookup_events w (probe w s).1 (probe w s).2.1 data ++
            [Event.dt_find_compatible_driver (probe w s).1 (node_offset w (probe w s).1 data)],
          [Event.log ("Switching console to device: " ++
              String.mk (uart_path w (probe w s).1 (text_before_colon (directive data)))),
            Event.free],
          (probe w s).1, node_offset w (probe w s).1 data, parms_text (directive data),
          sd.dev_init (sd.dev_alloc ()) (probe w s).1 (node_offset w (probe w s).1 data)
            (parms_text (directive data)), ?_, ?_⟩
        · simp [flush_events, hc]
        · intro e he
          simp only [List.mem_append, List.mem_cons, List.mem_singleton, List.not_mem_nil,
            or_false, lookup_events] at he
          rcases he with ((he | he) | he) | he
          · exact probe_events_plain w s e he
          · rcases he with rfl | rfl | rfl | rfl <;> exact ⟨rfl, rfl⟩
          · subst he; exact ⟨rfl, rfl⟩
          · rcases he with rfl | rfl <;> exact ⟨rfl, rfl⟩
      | _ => simp [lookup_events] at h
  · intro hc dev f o p r h
    rcases List.mem_append.mp h with h | h
    · exact absurd h (not_mem_probe_events w s _ (by intro f p; simp))
    · apply List.mem_append_right
      cases ho <;> simp [lookup_events, flush_events, hc] at h <;>
        simp [lookup_events, flush_events, hc]

theorem previous_console_flushed_before_init_witness :
    Event.flush 3 ∈ run_events
      (board 8 (some serial0) (some ⟨some (uart_driver 7 (-1))⟩)) early_console ∧
    ∃ pre post f o p r,
      run_events (board 8 (some serial0) (some ⟨some (uart_driver 7 (-1))⟩)) early_console =
        pre ++ [Event.dev_alloc 7, Event.flush 3, Event.dev_init 7 f o p r] ++ post ∧
      ∀ e ∈ pre ++ post, is_flush e = false ∧ is_dev_init e = false :=
  have h := previous_console_flushed_before_init
    (board 8 (some serial0) (some ⟨some (uart_driver 7 (-1))⟩)) early_console
  ⟨h.2.2 (by decide) 7 1 40 none (-1) (by decide), h.2.1 (by decide) 7 (by decide) (by decide)⟩

/-! ## Line endings -/

theorem emissions_calls_events (chip : Ptr) (chars : List Int) :
    emissions chip (calls_events chip (chars.map Call.putc)) = with_cr chars := by
  induction chars with
  | nil => rfl
  | cons ch cs ih =>
    simp only [List.map_cons, calls_events, emissions_append, ih, with_cr, call_events]
    by_cases hl : ch = LF <;> simp [hl, emissions, putc_on]

theorem with_cr_length (chars : List Int) :
    (with_cr chars).length = chars.length + chars.count LF := by
  induction chars with
  | nil => rfl
  | cons ch cs ih =>
    unfold with_cr
    by_cases hl : ch = LF
    · simp [hl, ih]
      omega
    · simp [hl, ih, List.count_cons]
      omega

theorem with_cr_before_lf (chars : List Int) :
    ∀ pre post : List Int, with_cr chars = pre ++ LF :: post → ∃ pre2, pre = pre2 ++ [CR] := by
  induction chars with
  | nil =>
    intro pre post h
    simp [with_cr] at h
  | cons ch cs ih =>
    intro pre post h
    unfold with_cr at h
    by_cases hl : ch = LF
    · simp only [hl, if_true] at h
      cases pre with
      | nil => simp at h
      | cons a pre1 =>
        simp only [List.cons_append, List.cons.injEq] at h
        obtain ⟨rfl, h⟩ := h
        cases pre1 with
        | nil => exact ⟨[], rfl⟩
        | cons b pre2 =>
          simp only [List.cons_append, List.cons.injEq] at h
          obtain ⟨rfl, h⟩ := h
          obtain ⟨q, rfl⟩ := ih pre2 post h
          exact ⟨CR :: LF :: q, rfl⟩
    · simp only [hl, if_false] at h
      cases pre with
      | nil =>
        simp only [List.nil_append, List.cons.injEq] at h
        exact absurd h.1 hl
      | cons a pre1 =>
        simp only [List.cons_append, List.cons.injEq] at h
        obtain ⟨rfl, h⟩ := h
        obtain ⟨q, rfl⟩ := ih pre1 post h
        exact ⟨ch :: q, rfl⟩

/-- C16: with a console active, writing a sequence of characters one by one
through `console_putc` sends to that chip the sequence with a carriage return
put before each line feed, and nothing else; so every line feed sent is
immediately preceded by a carriage return and the number of characters sent is
the length of the sequence plus the number of its line feeds. -/
theorem putc_sequence_is_crlf (chip : Ptr) (s : State) (chars : List Int)
    (hchip : chip ≠ NULL) (hs : s.serial_console = chip) :
    (run_calls (chars.map Call.putc) s).trace =
      s.trace ++ (with_cr chars).map (Event.putc chip) ∧
    emissions chip (run_calls (chars.map Call.putc) s).trace =
      emissions chip s.trace ++ with_cr chars ∧
    (∀ pre post : List Int, with_cr chars = pre ++ LF :: post →
      ∃ pre2, pre = pre2 ++ [CR]) ∧
    (with_cr chars).length = chars.length + chars.count LF := by
  have htr : calls_events chip (chars.map Call.putc) = (with_cr chars).map (Event.putc chip) := by
    induction chars with
    | nil => rfl
    | cons ch cs ih =>
      simp only [List.map_cons, calls_events, ih, with_cr, call_events]
      by_cases hl : ch = LF <;> simp [hl]
  refine ⟨?_, ?_, with_cr_before_lf chars, with_cr_length chars⟩
  · rw [run_calls_on chip hchip _ s hs, htr]
  · rw [run_calls_on chip hchip _ s hs]
    simp only [emissions_append, emissions_calls_events]

theorem putc_sequence_is_crlf_witness :
    emissions 3 (run_calls ([72, 105, 10, 10, 33].map Call.putc) early_console).trace =
      [72, 105, 13, 10, 13, 10, 33] :=
  (putc_sequence_is_crlf 3 early_console [72, 105, 10, 10, 33] (by decide) rfl).2.1

/-! ## The arguments of `dev_init` and the use of `dev_free` -/

/-- C17: when a run calls `dev_init`, the device is the non-null one its
`dev_alloc` returned; the blob is the one in which the chosen node was found
(the external blob when the embedded one is absent or has no chosen node), and
the property, alias, path and driver lookups of the run are on that same blob;
the offset is the one the specifier (or its alias target) resolves to, which is
also the one given to driver matching; and the parameter string is the text
after the first `:` of the directive, null when there is none. -/
theorem dev_init_arguments (w : World) (s : State) (dev f : Ptr) (o r : Int)
    (p : Option (List Char))
    (hinit : Event.dev_init dev f o p r ∈ run_events w s) :
    ∃ offs0 data,
      (chosen_found w f offs0 ∧ w.fdt_get_property f offs0 STDOUT_PATH = some data ∧
        (no_chosen_node w w.get_embedded_dt → f = w.get_external_dt)) ∧
      (Event.dev_alloc dev ∈ run_events w s ∧ dev ≠ NULL) ∧
      (o = node_offset w f data ∧ 0 ≤ o ∧ p = parms_text (directive data)) ∧
      (Event.fdt_get_property f offs0 STDOUT_PATH ∈ run_events w s ∧
        Event.fdt_get_alias f (text_before_colon (directive data)) ∈ run_events w s ∧
        Event.fdt_path_offset f (uart_path w f (text_before_colon (directive data))) ∈
          run_events w s ∧
        Event.dt_find_compatible_driver f o ∈ run_events w s) ∧
      ((∀ f2 o2 n, Event.fdt_get_property f2 o2 n ∈ run_events w s → f2 = f) ∧
        (∀ f2 n, Event.fdt_get_alias f2 n ∈ run_events w s → f2 = f) ∧
        (∀ f2 o2, Event.dt_find_compatible_driver f2 o2 ∈ run_events w s → f2 = f ∧ o2 = o)) := by
  obtain ⟨c, evs, ho, -, he⟩ := run_outcome w s
  rw [he] at hinit ⊢
  clear he
  have hfb : ∀ offs0, chosen_found w (probe w s).1 offs0 →
      no_chosen_node w w.get_embedded_dt → (probe w s).1 = w.get_external_dt := by
    intro offs0 hcf hno
    rcases hcf with ⟨hf, hat⟩ | ⟨-, hf, -⟩
    · rw [hf] at hat
      exact absurd hno ((chosen_node_at_iff w _).mp ⟨offs0, hat⟩)
    · exact hf
  have hgp : ∀ (l : List Event) (f2 : Ptr) (o2 : Int) (n : List Char),
      Event.fdt_get_property f2 o2 n ∈ probe_events w s ++ l →
      Event.fdt_get_property f2 o2 n ∈ l := by
    intro l f2 o2 n h
    rcases List.mem_append.mp h with h | h
    · exact absurd h (not_mem_probe_events w s _ (by intro f p; simp))
    · exact h
  have hga : ∀ (l : List Event) (f2 : Ptr) (n : List Char),
      Event.fdt_get_alias f2 n ∈ probe_events w s ++ l → Event.fdt_get_alias f2 n ∈ l := by
    intro l f2 n h
    rcases List.mem_append.mp h with h | h
    · exact absurd h (not_mem_probe_events w s _ (by intro f p; simp))
    · exact h
  have hfd : ∀ (l : List Event) (f2 : Ptr) (o2 : Int),
      Event.dt_find_compatible_driver f2 o2 ∈ probe_events w s ++ l →
      Event.dt_find_compatible_driver f2 o2 ∈ l := by
    intro l f2 o2 h
    rcases List.mem_append.mp h with h | h
    · exact absurd h (not_mem_probe_events w s _ (by intro f p; simp))
    · exact h
  rcases List.mem_append.mp hinit with h | h
  · exact absurd h (not_mem_probe_events w s _ (by intro f p; simp))
  · cases ho with
    | init_failed h0 data hp hm hn d hd sd hs ha hi =>
      simp [lookup_events, flush_events] at h
      obtain ⟨rfl, rfl, rfl, rfl, rfl⟩ := h
      have hcf := probe_chosen w s h0
      refine ⟨(probe w s).2.1, data, ⟨hcf, hp, hfb _ hcf⟩, ⟨?_, ha⟩, ⟨rfl, hn, rfl⟩,
        ⟨?_, ?_, ?_, ?_⟩, ⟨?_, ?_, ?_⟩⟩
      · apply List.mem_append_right; simp [lookup_events]
      · apply List.mem_append_right; simp [lookup_events]
      · apply List.mem_append_right; simp [lookup_events]
      · apply List.mem_append_right; simp [lookup_events]
      · apply List.mem_append_right; simp [lookup_events]
      · intro f2 o2 n h2
        have := hgp _ f2 o2 n h2
        simp [lookup_events, flush_events] at this
        exact this.1
      · intro f2 n h2
        have := hga _ f2 n h2
        simp [lookup_events, flush_events] at this
        exact this.1
      · intro f2 o2 h2
        have := hfd _ f2 o2 h2
        simp [lookup_events, flush_events] at this
        exact this
    | switched h0 data hp hm hn d hd sd hs ha hi =>
      simp [lookup_events, flush_events] at h
      obtain ⟨rfl, rfl, rfl, rfl, rfl⟩ := h
      have hcf := probe_chosen w s h0
      refine ⟨(probe w s).2.1, data, ⟨hcf, hp, hfb _ hcf⟩, ⟨?_, ha⟩, ⟨rfl, hn, rfl⟩,
        ⟨?_, ?_, ?_, ?_⟩, ⟨?_, ?_, ?_⟩⟩
      · apply List.mem_append_right; simp [lookup_events]
      · apply List.mem_append_right; simp [lookup_events]
      · apply List.mem_append_right; simp [lookup_events]
      · apply List.mem_append_right; simp [lookup_events]
      · apply List.mem_append_right; simp [lookup_events]
      · intro f2 o2 n h2
        have := hgp _ f2 o2 n h2
        simp [lookup_events, flush_events] at this
        exact this.1
      · intro f2 n h2
        have := hga _ f2 n h2
        simp [lookup_events, flush_events] at this
        exact this.1
      · intro f2 o2 h2
        have := hfd _ f2 o2 h2
        simp [lookup_events, flush_events] at this
        exact this
    | _ => simp [lookup_events] at h

theorem dev_init_arguments_witness :
    Event.dev_alloc 9 ∈ run_events
      (two_blob_board (-1) (-1) (-1) 16 none (some uart_9600_8n1)) early_console ∧
    Event.fdt_get_alias 2 "/uart".toList ∈ run_events
      (two_blob_board (-1) (-1) (-1) 16 none (some uart_9600_8n1)) early_console ∧
    Event.dt_find_compatible_driver 2 48 ∈ run_events
      (two_blob_board (-1) (-1) (-1) 16 none (some uart_9600_8n1)) early_console := by
  obtain ⟨offs0, data, -, h2, -, h4, -⟩ := dev_init_arguments
    (two_blob_board (-1) (-1) (-1) 16 none (some uart_9600_8n1)) early_console 9 2 48 0
    (some "9600:8n1".toList) (by decide)
  exact ⟨h2.1, by decide, h4.2.2.2⟩

theorem text_around_colon (v : List Char) (h : COLON ∈ v) :
    text_before_colon v ++ COLON :: text_after_colon v = v := by
  obtain ⟨a, b, rfl, ha⟩ := split_at_first_colon v h
  rw [text_before_colon_append a b ha, text_after_colon_append a b ha]

/-- C19: for the buffer `strdup` returns for a property value, after the cut at
the first `:` the specifier read at the start of the buffer followed by `:`
and by the parameter string read at `parms` is the value again, and the
specifier holds no `:`; when the value has no `:` the specifier is the value
and `parms` is null. -/
theorem directive_split_loses_nothing (ok : Bool) (data dup : List Char)
    (hdup : strdup ok data = some dup) :
    (COLON ∈ directive data →
      ∃ ps, (parms_of dup).map (c_str (cut_at_colon dup)) = some ps ∧
        c_str (cut_at_colon dup) 0 ++ COLON :: ps = directive data ∧
        COLON ∉ c_str (cut_at_colon dup) 0) ∧
    (COLON ∉ directive data →
      c_str (cut_at_colon dup) 0 = directive data ∧
      (parms_of dup).map (c_str (cut_at_colon dup)) = none) := by
  have hd : dup = c_str data 0 ++ [NUL] := by
    unfold strdup at hdup
    cases ok with
    | false => simp at hdup
    | true => simpa using hdup.symm
  subst hd
  rw [specifier_eq, parms_eq]
  refine ⟨?_, ?_⟩
  · intro hc
    refine ⟨text_after_colon (directive data), by rw [if_pos hc],
      text_around_colon _ hc, text_before_colon_no_colon _⟩
  · intro hc
    exact ⟨text_before_colon_of_not_mem _ hc, by rw [if_neg hc]⟩

theorem directive_split_loses_nothing_witness :
    ∃ ps, (parms_of ("/uart:9600:8n1".toList ++ [NUL])).map
        (c_str (cut_at_colon ("/uart:9600:8n1".toList ++ [NUL]))) = some ps ∧
      c_str (cut_at_colon ("/uart:9600:8n1".toList ++ [NUL])) 0 ++ COLON :: ps =
        "/uart:9600:8n1".toList ∧
      COLON ∉ c_str (cut_at_colon ("/uart:9600:8n1".toList ++ [NUL])) 0 :=
  (directive_split_loses_nothing true uart_9600_8n1 ("/uart:9600:8n1".toList ++ [NUL])
    (by decide)).1 (by decide)

end Console
